import Mathlib

/-!
Shallow embedding of the hjkl-snake simulation engine (src/lib.rs) and its
braille raster packer (src/render.rs), together with theorems checking the
natural-language specification against it.

Conventions of the embedding:
* Rust i32 grid coordinates are modelled as unbounded `Int`; truncating
  division and remainder of i32 are `Int.tdiv` / `Int.tmod`, and the `as`
  casts between integer widths are modelled explicitly where they matter.
* `VecDeque<Point>` is a `List Point` with the front of the deque at the
  head of the list; `HashSet<Point>` is a `Finset Point` (the code only uses
  membership, insertion and removal, which are order-insensitive).
* Fallible operations return `Option`: a `none` result models a Rust panic
  (an out-of-bounds index, or `rand`'s `random_range` on an empty range).
* The external ChaCha8 generator is modelled abstractly as a stream of
  naturals with a read position; `random_range(0..n)` consumes one value and
  reduces it modulo the (positive) range size, and panics (`none`) on an
  empty range, matching the documented behaviour of the `rand` crate.
-/

/-- Grid coordinate pair (`struct Point` in src/lib.rs). -/
structure Point where
  x : Int
  y : Int
deriving DecidableEq

instance : Inhabited Point := ⟨⟨0, 0⟩⟩

/-- Movement direction (`enum Direction` in src/lib.rs). -/
inductive Direction where
  | up
  | down
  | left
  | right
deriving DecidableEq

/-- `Direction::dx_dy`: the unit vector of a direction. -/
def Direction.dxDy : Direction → Int × Int
  | .up => (0, -1)
  | .down => (0, 1)
  | .left => (-1, 0)
  | .right => (1, 0)

/-- `Direction::is_opposite`: whether two directions are 180 degrees apart. -/
def Direction.isOpposite : Direction → Direction → Bool
  | .up, .down => true
  | .down, .up => true
  | .right, .left => true
  | .left, .right => true
  | _, _ => false

/-- `enum GameStatus` in src/lib.rs. -/
inductive GameStatus where
  | running
  | dead
deriving DecidableEq

/-- `struct GameConfig` in src/lib.rs. -/
structure GameConfig where
  width : Int
  height : Int
  wrap_edges : Bool
  initial_len : Nat
  braille_friendly : Bool
deriving DecidableEq

/-- `struct TickResult` in src/lib.rs (score is the `u32` counter). -/
structure TickResult where
  ate_food : Bool
  status : GameStatus
  score : Nat
deriving DecidableEq

/-- Abstract model of the seeded ChaCha8 generator: an infinite stream of
naturals together with the position of the next unread value. -/
structure Rng where
  stream : Nat → Nat
  pos : Nat

/-- Modelled from the spec: `rand`'s `Rng::random_range(0..n)` — uniform
sampling from `[0, n)`; the crate is external to the repository.  Consumes
one stream value, reduces it into the range, and panics (`none`) when the
range is empty (`n ≤ 0`). -/
def Rng.randomRange (r : Rng) (n : Int) : Option (Int × Rng) :=
  if n ≤ 0 then none
  else some ((r.stream r.pos : Int) % n, ⟨r.stream, r.pos + 1⟩)

/-- Modelled from the spec: `ChaCha8Rng::seed_from_u64` (external
`rand_chacha` crate) — a deterministic pseudo-random stream derived from the
seed; the claims depend only on it being a function of the seed. -/
def chaCha8FromSeed (seed : Nat) : Rng :=
  ⟨fun i => seed + i, 0⟩

/-- `struct GameState` in src/lib.rs. -/
structure GameState where
  cfg : GameConfig
  snake : List Point
  dir : Direction
  pending_dir : Option Direction
  food : Finset Point
  rng : Rng
  status : GameStatus
  score : Nat

/-- The `as usize` cast of an i32 value (two's-complement reinterpretation
into a 64-bit unsigned integer). -/
def usizeOfI32 (w : Int) : Nat :=
  (w % (2 ^ 64 : Int)).toNat

/-- The `as i32` cast of a usize value (truncation to 32 bits, reinterpreted
as two's complement). -/
def usizeToI32 (n : Nat) : Int :=
  if n % 2 ^ 32 < 2 ^ 31 then (n % 2 ^ 32 : Int) else (n % 2 ^ 32 : Int) - 2 ^ 32

/-- `usize::MAX`, the saturation bound of `saturating_mul`. -/
def USIZE_MAX : Nat := 2 ^ 64 - 1

/-- `usize::saturating_mul`. -/
def satMul (a b : Nat) : Nat := min (a * b) USIZE_MAX

/-- The retry bound computed at the top of `GameState::spawn_food`:
`(width as usize).saturating_mul(height as usize).saturating_mul(2).max(8)`. -/
def maxAttempts (cfg : GameConfig) : Nat :=
  max (satMul (satMul (usizeOfI32 cfg.width) (usizeOfI32 cfg.height)) 2) 8

/-- The retry loop of `GameState::spawn_food`, by remaining attempts: draw a
coordinate pair, and insert it if it collides with neither the snake nor the
existing food; on exhaustion leave the food set unchanged. -/
def spawnFoodAux (cfg : GameConfig) (snake : List Point) :
    Nat → Finset Point → Rng → Option (Finset Point × Rng)
  | 0, food, rng => some (food, rng)
  | fuel + 1, food, rng =>
    match rng.randomRange cfg.width with
    | none => none
    | some (x, rng1) =>
      match rng1.randomRange cfg.height with
      | none => none
      | some (y, rng2) =>
        let p : Point := ⟨x, y⟩
        if p ∉ snake ∧ p ∉ food then some (insert p food, rng2)
        else spawnFoodAux cfg snake fuel food rng2

/-- `GameState::spawn_food`. -/
def GameState.spawnFood (s : GameState) : Option GameState :=
  match spawnFoodAux s.cfg s.snake (maxAttempts s.cfg) s.food s.rng with
  | none => none
  | some (food', rng') => some { s with food := food', rng := rng' }

/-- The snake layout built by `GameState::reset`: segments
`(cx - i, cy)` for `i in 0..(initial_len.max(1) as i32)`, head first. -/
def initialSnake (cfg : GameConfig) : List Point :=
  let cx := Int.tdiv cfg.width 2
  let cy := Int.tdiv cfg.height 2
  (List.range (usizeToI32 (max cfg.initial_len 1)).toNat).map
    (fun (i : Nat) => Point.mk (cx - (i : Int)) cy)

/-- `GameState::reset`: restore status, score, snake, food, direction and
pending direction, then spawn one piece of food. -/
def GameState.reset (s : GameState) : Option GameState :=
  GameState.spawnFood
    { s with
      status := .running
      score := 0
      snake := initialSnake s.cfg
      food := ∅
      dir := .right
      pending_dir := none }

/-- `GameState::with_rng`: construct a state and immediately reset it. -/
def GameState.withRng (cfg : GameConfig) (rng : Rng) : Option GameState :=
  GameState.reset ⟨cfg, [], .right, none, ∅, rng, .running, 0⟩

/-- `GameState::with_seed`. -/
def GameState.withSeed (cfg : GameConfig) (seed : Nat) : Option GameState :=
  GameState.withRng cfg (chaCha8FromSeed seed)

/-- `GameState::queue_direction`. -/
def GameState.queueDirection (s : GameState) (d : Direction) : GameState :=
  { s with pending_dir := some d }

/-- `GameState::head` (the code `expect`s a non-empty snake; on the empty
snake this total model returns the default point, a case no claim and no
reachable state exercises). -/
def GameState.head (s : GameState) : Point :=
  s.snake.headI

/-- The direction-commit prefix of `GameState::tick`: take the pending
direction and commit it unless it is the opposite of the current one. -/
def GameState.commitDir (s : GameState) : GameState :=
  match s.pending_dir with
  | none => s
  | some next =>
    if next.isOpposite s.dir then { s with pending_dir := none }
    else { s with pending_dir := none, dir := next }

/-- `GameState::next_head_position`. -/
def GameState.nextHeadPosition (s : GameState) : Point :=
  let d := s.dir.dxDy
  ⟨s.head.x + d.1, s.head.y + d.2⟩

/-- `GameState::out_of_bounds`. -/
def out_of_bounds (cfg : GameConfig) (p : Point) : Bool :=
  if p.x < 0 then true
  else if cfg.width ≤ p.x then true
  else if p.y < 0 then true
  else if cfg.height ≤ p.y then true
  else false

/-- `GameState::wrap`. -/
def wrapPoint (cfg : GameConfig) (p : Point) : Point :=
  let x := if p.x < 0 then cfg.width - 1 else if cfg.width ≤ p.x then 0 else p.x
  let y := if p.y < 0 then cfg.height - 1 else if cfg.height ≤ p.y then 0 else p.y
  ⟨x, y⟩

/-- `GameState::collides_with_body`: when the tail will move off this step,
ignore the last segment during the collision check. -/
def collidesWithBody (snake : List Point) (p : Point) (tailWillMoveOff : Bool) : Bool :=
  if tailWillMoveOff ∧ snake ≠ [] then
    (snake.take (snake.length - 1)).any (fun s => decide (s = p))
  else
    snake.any (fun s => decide (s = p))

/-- The candidate head cell actually used by the eating and collision tests:
the raw next head position, wrapped when `wrap_edges` is set. -/
def GameState.effCandidate (s : GameState) : Point :=
  if s.cfg.wrap_edges then wrapPoint s.cfg s.nextHeadPosition else s.nextHeadPosition

/-- The body of `GameState::tick` after the direction commit (boundary
check, wrap, eating test, self-collision test, head push, tail pop or food
respawn). -/
def GameState.tickMove (s : GameState) : Option (GameState × TickResult) :=
  let nh0 := s.nextHeadPosition
  if s.cfg.wrap_edges = false ∧ out_of_bounds s.cfg nh0 = true then
    some ({ s with status := .dead }, ⟨false, .dead, s.score⟩)
  else
    let nh := s.effCandidate
    let isEating := decide (nh ∈ s.food)
    if collidesWithBody s.snake nh (!isEating) then
      some ({ s with status := .running }, ⟨false, .running, s.score⟩)
    else
      let s1 := { s with snake := nh :: s.snake }
      if isEating then
        match GameState.spawnFood { s1 with food := s1.food.erase nh, score := s1.score + 1 } with
        | none => none
        | some s2 => some (s2, ⟨true, s2.status, s2.score⟩)
      else
        some ({ s1 with snake := s1.snake.dropLast }, ⟨false, s1.status, s1.score⟩)

/-- `GameState::tick`. -/
def GameState.tick (s : GameState) : Option (GameState × TickResult) :=
  if s.status = .dead then some (s, ⟨false, s.status, s.score⟩)
  else s.commitDir.tickMove

/-- One external call into the simulation core. -/
inductive GameEvent where
  | queue (d : Direction)
  | tick
  | reset

/-- Apply one external call to a state. -/
def GameState.stepEvent (s : GameState) : GameEvent → Option GameState
  | .queue d => some (s.queueDirection d)
  | .tick => s.tick.map Prod.fst
  | .reset => s.reset

/-- Drive a state through a sequence of external calls. -/
def runEvents : GameState → List GameEvent → Option GameState
  | s, [] => some s
  | s, e :: es =>
    match s.stepEvent e with
    | none => none
    | some s' => runEvents s' es

/-- Drive a state through a sequence of external calls, collecting the
`TickResult` of every tick. -/
def runTrace : GameState → List GameEvent → Option (GameState × List TickResult)
  | s, [] => some (s, [])
  | s, .queue d :: es => runTrace (s.queueDirection d) es
  | s, .reset :: es =>
    match s.reset with
    | none => none
    | some s' => runTrace s' es
  | s, .tick :: es =>
    match s.tick with
    | none => none
    | some (s', r) => (runTrace s' es).map (fun p => (p.1, r :: p.2))

/-- A point lies inside the board rectangle. -/
def inBounds (cfg : GameConfig) (p : Point) : Prop :=
  0 ≤ p.x ∧ p.x < cfg.width ∧ 0 ≤ p.y ∧ p.y < cfg.height

instance (cfg : GameConfig) (p : Point) : Decidable (inBounds cfg p) := by
  unfold inBounds; infer_instance

/-- The state invariant named by the spec: the snake is never empty, every
segment is on the board while the game is running, and the food set is
disjoint from the snake. -/
def GameInv (s : GameState) : Prop :=
  s.snake ≠ [] ∧
    (s.status = .running → ∀ p ∈ s.snake, inBounds s.cfg p) ∧
    ∀ p ∈ s.food, p ∉ s.snake

/-- `struct Raster2D` in src/lib.rs: a boolean grid stored row-major. -/
structure Raster2D where
  width : Int
  height : Int
  cells : List Bool
deriving DecidableEq

/-- `Raster2D::new`: allocates `(width.max(0) * height.max(0)) as usize`
cells, all false. -/
def Raster2D.new (width height : Int) : Raster2D :=
  ⟨width, height, List.replicate (max width 0 * max height 0).toNat false⟩

/-- `Raster2D::idx`: the guard admits the inclusive edge (`x > width`
rather than `x >= width`), exactly as the source writes it.  Whenever the
guard passes, `y * width + x` is non-negative, so `.toNat` is the exact
`as usize` cast. -/
def Raster2D.idx (r : Raster2D) (x y : Int) : Option Nat :=
  if x < 0 ∨ y < 0 ∨ x > r.width ∨ y > r.height then none
  else some ((y * r.width + x).toNat)

/-- `Raster2D::get`: the outer `none` models the panic of `self.cells[idx]`
when the computed index falls outside the cell vector; `some none` is the
regular `None` return for probes rejected by `idx`, and `some (some b)` the
regular `Some` return. -/
def Raster2D.get (r : Raster2D) (x y : Int) : Option (Option Bool) :=
  match r.idx x y with
  | none => some none
  | some i =>
    if h : i < r.cells.length then some (some (r.cells.get ⟨i, h⟩))
    else none

/-- A raster is well-formed when its dimensions are non-negative and its
cell vector has exactly `width * height` entries — true of every raster the
program builds (`Raster2D::new` and the renderer's input). -/
def Raster2D.WF (r : Raster2D) : Prop :=
  0 ≤ r.width ∧ 0 ≤ r.height ∧ r.cells.length = r.width.toNat * r.height.toNat

instance (r : Raster2D) : Decidable r.WF := by
  unfold Raster2D.WF; infer_instance

/-- The truth value render.rs reads with `raster.get(w, h)`: the stored bit
for an in-range probe.  (On a well-formed raster every probe the renderer
makes is strictly in range, so the panic and `None` cases never arise.) -/
def Raster2D.cellOn (r : Raster2D) (x y : Int) : Bool :=
  match r.get x y with
  | some (some b) => b
  | _ => false

/-- The second/third UTF-8 byte contribution OR-ed in for an on cell at
sub-position `(vert_placement, horiz_placement) = (row mod 4, col mod 2)` —
the fixed match table of `render_braille`.  The catch-all is unreachable
(the Rust arm panics) because the moduli are always below 4 and 2. -/
def dotContribution : Nat → Nat → Nat × Nat
  | 0, 0 => (0x00, 0x01)
  | 1, 0 => (0x00, 0x02)
  | 2, 0 => (0x00, 0x04)
  | 3, 0 => (0x01, 0x00)
  | 0, 1 => (0x00, 0x08)
  | 1, 1 => (0x00, 0x10)
  | 2, 1 => (0x00, 0x20)
  | 3, 1 => (0x02, 0x00)
  | _, _ => (0x00, 0x00)

/-- The mutable `lines` buffer of `render_braille`, modelled as a map from
block row/column to the pair of variable UTF-8 bytes (the leading byte is
the constant `0xE2`). -/
def BrailleGrid : Type := Nat → Nat → Nat × Nat

/-- One iteration of the double loop of `render_braille`: if cell `(w, h)`
is on, OR its dot contribution into block `(h / 4, w / 2)`. -/
def renderStep (r : Raster2D) (g : BrailleGrid) (hw : Nat × Nat) : BrailleGrid :=
  if r.cellOn hw.2 hw.1 then
    let c := dotContribution (hw.1 % 4) (hw.2 % 2)
    fun i j =>
      if i = hw.1 / 4 ∧ j = hw.2 / 2 then ((g i j).1 ||| c.1, (g i j).2 ||| c.2)
      else g i j
  else g

/-- The row-major traversal order of the double loop:
`for h in 0..height { for w in 0..width { ... } }`. -/
def cellPairs (r : Raster2D) : List (Nat × Nat) :=
  (List.range r.height.toNat).flatMap
    (fun h => (List.range r.width.toNat).map (fun w => (h, w)))

/-- The final contents of the `lines` buffer, starting from the blank glyph
`[0xE2, 0xA0, 0x80]` (U+2800) in every block. -/
def renderGrid (r : Raster2D) : BrailleGrid :=
  (cellPairs r).foldl (renderStep r) (fun _ _ => (0xA0, 0x80))

/-- The three UTF-8 bytes emitted for one block. -/
def glyphBytes (g : BrailleGrid) (i j : Nat) : List Nat :=
  [0xE2, (g i j).1, (g i j).2]

/-- `render_braille`: `none` models the dimension-mismatch panics; otherwise
the emitted byte string — one glyph per 2-by-4 block, block rows joined by a
single newline byte.  (For negative dimensions the `as usize` casts of the
real code would produce an absurd allocation; no claim reaches them, and
well-formed rasters have non-negative dimensions.) -/
def render_braille (r : Raster2D) : Option (List Nat) :=
  if Int.tmod r.width 2 ≠ 0 then none
  else if Int.tmod r.height 4 ≠ 0 then none
  else
    let gw := (Int.tdiv r.width 2).toNat
    let gh := (Int.tdiv r.height 4).toNat
    let g := renderGrid r
    some (List.intercalate [0x0A]
      ((List.range gh).map (fun i => (List.range gw).flatMap (fun j => glyphBytes g i j))))

/-- Dot bit `k` (0-7 in the 8-dot braille numbering) of a block's glyph, read
off its two variable UTF-8 bytes: bits 0-5 live in the third byte, bits 6-7
in the low bits of the second byte. -/
def dotBit (p : Nat × Nat) (k : Nat) : Bool :=
  if k < 6 then p.2.testBit k else p.1.testBit (k - 6)

/-- The code point encoded by a glyph's three UTF-8 bytes
`[0xE2, b1, b2]`: `0x2800` plus the dot bits. -/
def glyphCodepoint (p : Nat × Nat) : Nat :=
  0x2000 + (p.1 % 64) * 64 + p.2 % 64

/-- The contribution of a cell list to block `(i, j)`, OR-ed in traversal
order — the reference value the loop characterisation proves the buffer
equal to. -/
def contribList (r : Raster2D) (i j : Nat) : List (Nat × Nat) → Nat × Nat
  | [] => (0, 0)
  | hw :: t =>
    let rest := contribList r i j t
    if i = hw.1 / 4 ∧ j = hw.2 / 2 ∧ r.cellOn hw.2 hw.1 then
      let c := dotContribution (hw.1 % 4) (hw.2 % 2)
      (c.1 ||| rest.1, c.2 ||| rest.2)
    else rest

/-- The eight cells of block `(i, j)` in loop traversal order (row-major),
grouped row by row. -/
def blockCells (i j : Nat) : List (Nat × Nat) :=
  [(4 * i, 2 * j), (4 * i, 2 * j + 1)] ++
    ([(4 * i + 1, 2 * j), (4 * i + 1, 2 * j + 1)] ++
      ([(4 * i + 2, 2 * j), (4 * i + 2, 2 * j + 1)] ++
        [(4 * i + 3, 2 * j), (4 * i + 3, 2 * j + 1)]))

/-- OR a contribution into an accumulating byte pair when a cell is on. -/
def orIf (b : Bool) (c rest : Nat × Nat) : Nat × Nat :=
  if b then (c.1 ||| rest.1, c.2 ||| rest.2) else rest

/-- The byte pair a block contributes, as a function of its eight cell
values in loop traversal order. -/
def blockPairOf (b00 b01 b10 b11 b20 b21 b30 b31 : Bool) : Nat × Nat :=
  orIf b00 (0x00, 0x01) (orIf b01 (0x00, 0x08)
    (orIf b10 (0x00, 0x02) (orIf b11 (0x00, 0x10)
      (orIf b20 (0x00, 0x04) (orIf b21 (0x00, 0x20)
        (orIf b30 (0x01, 0x00) (orIf b31 (0x02, 0x00) (0, 0))))))))

/-- A concrete deterministic stream: every draw reads 0. -/
def rng0 : Rng := ⟨fun _ => 0, 0⟩

/-- The stream `rng0` after two draws. -/
def rng0'2 : Rng := ⟨fun _ => 0, 2⟩

/-- Config whose initial snake (length 4 on a width-4 board) overhangs the
left edge at creation. -/
def c6cfg : GameConfig := ⟨4, 4, false, 4, true⟩

/-- The state `with_rng(c6cfg, rng0)` builds: the tail segment sits at
`(-1, 2)`, outside the board, while the status is Running. -/
def c6cexState : GameState :=
  ⟨c6cfg, [⟨2, 2⟩, ⟨1, 2⟩, ⟨0, 2⟩, ⟨-1, 2⟩], .right, none, {⟨0, 0⟩}, rng0'2, .running, 0⟩

/-- A well-behaved config for the invariant witness. -/
def c6okCfg : GameConfig := ⟨4, 4, false, 2, true⟩

/-- The state `with_rng(c6okCfg, rng0)` builds. -/
def c6okState : GameState :=
  ⟨c6okCfg, [⟨2, 2⟩, ⟨1, 2⟩], .right, none, {⟨0, 0⟩}, rng0'2, .running, 0⟩

/-- Config with `initial_len = 2^31`: the `as i32` cast in `reset` turns the
loop bound negative, so no segment is ever pushed. -/
def c10cfg : GameConfig := ⟨10, 8, false, 2 ^ 31, true⟩

/-- The state `with_rng(c10cfg, rng0)` builds: an empty snake. -/
def c10cexState : GameState :=
  ⟨c10cfg, [], .right, none, {⟨0, 0⟩}, rng0'2, .running, 0⟩

/-- A running state about to run head-first into its own body: head `(2,2)`
heading left, candidate `(1,2)` is a non-tail body segment. -/
def w1State : GameState :=
  ⟨⟨6, 6, false, 3, true⟩, [⟨2, 2⟩, ⟨2, 1⟩, ⟨1, 1⟩, ⟨1, 2⟩, ⟨1, 3⟩], .left, none,
    {⟨5, 5⟩}, rng0, .running, 0⟩

/-- A running state with its head on the right edge heading right on a
3-by-3 board without wrapping (the `wall_collision_kills` scenario). -/
def w2State : GameState :=
  ⟨⟨3, 3, false, 1, true⟩, [⟨2, 1⟩], .right, none, {⟨0, 0⟩}, rng0, .running, 0⟩

/-- `w2State` after the boundary death. -/
def w2State' : GameState :=
  ⟨⟨3, 3, false, 1, true⟩, [⟨2, 1⟩], .right, none, {⟨0, 0⟩}, rng0, .dead, 0⟩

/-- A running state with food directly ahead of the head. -/
def w3EatState : GameState :=
  ⟨⟨10, 8, false, 3, true⟩, [⟨5, 4⟩, ⟨4, 4⟩, ⟨3, 4⟩], .right, none, {⟨6, 4⟩}, rng0,
    .running, 0⟩

/-- A running state with no food ahead and a free cell ahead. -/
def w3MoveState : GameState :=
  ⟨⟨10, 8, false, 3, true⟩, [⟨5, 4⟩, ⟨4, 4⟩, ⟨3, 4⟩], .right, none, {⟨0, 0⟩}, rng0,
    .running, 0⟩

/-- A running state on a wrapping board with its head on the right edge
heading right. -/
def w5State : GameState :=
  ⟨⟨4, 4, true, 1, true⟩, [⟨3, 2⟩], .right, none, {⟨1, 1⟩}, rng0, .running, 0⟩

/-- A config for the determinism witness. -/
def d7cfg : GameConfig := ⟨10, 8, false, 3, true⟩

/-- A 2-by-4 raster with only its top-left cell on. -/
def w8Raster : Raster2D :=
  ⟨2, 4, [true, false, false, false, false, false, false, false]⟩

/-- A config for the reset-length witness. -/
def w10cfg : GameConfig := ⟨10, 8, false, 0, true⟩

/-- The state `reset` builds from `w10cfg` and `rng0`: `initial_len = 0` is
clamped to a single segment at the board centre. -/
def w10State : GameState :=
  ⟨w10cfg, [⟨5, 4⟩], .right, none, {⟨0, 0⟩}, rng0'2, .running, 0⟩

theorem GameState.commitDir_cfg (s : GameState) : s.commitDir.cfg = s.cfg := by
  cases hp : s.pending_dir with
  | none => simp [GameState.commitDir, hp]
  | some d => simp only [GameState.commitDir, hp]; split <;> rfl

theorem GameState.commitDir_snake (s : GameState) : s.commitDir.snake = s.snake := by
  cases hp : s.pending_dir with
  | none => simp [GameState.commitDir, hp]
  | some d => simp only [GameState.commitDir, hp]; split <;> rfl

theorem GameState.commitDir_food (s : GameState) : s.commitDir.food = s.food := by
  cases hp : s.pending_dir with
  | none => simp [GameState.commitDir, hp]
  | some d => simp only [GameState.commitDir, hp]; split <;> rfl

theorem GameState.commitDir_status (s : GameState) : s.commitDir.status = s.status := by
  cases hp : s.pending_dir with
  | none => simp [GameState.commitDir, hp]
  | some d => simp only [GameState.commitDir, hp]; split <;> rfl

theorem GameState.commitDir_score (s : GameState) : s.commitDir.score = s.score := by
  cases hp : s.pending_dir with
  | none => simp [GameState.commitDir, hp]
  | some d => simp only [GameState.commitDir, hp]; split <;> rfl

theorem GameState.commitDir_rng (s : GameState) : s.commitDir.rng = s.rng := by
  cases hp : s.pending_dir with
  | none => simp [GameState.commitDir, hp]
  | some d => simp only [GameState.commitDir, hp]; split <;> rfl

theorem GameState.commitDir_pending (s : GameState) : s.commitDir.pending_dir = none := by
  cases hp : s.pending_dir with
  | none => simp [GameState.commitDir, hp]
  | some d => simp only [GameState.commitDir, hp]; split <;> rfl

theorem out_of_bounds_eq_false_iff (cfg : GameConfig) (p : Point) :
    out_of_bounds cfg p = false ↔ inBounds cfg p := by
  unfold out_of_bounds inBounds
  split_ifs <;> simp <;> omega

theorem wrapPoint_inBounds (cfg : GameConfig) (p : Point)
    (hw : 0 < cfg.width) (hh : 0 < cfg.height) :
    inBounds cfg (wrapPoint cfg p) := by
  unfold wrapPoint inBounds
  split_ifs <;> simp_all <;> omega

theorem collidesWithBody_mem {snake : List Point} {p : Point} {t : Bool}
    (h : collidesWithBody snake p t = true) : p ∈ snake := by
  unfold collidesWithBody at h
  split_ifs at h <;> rw [List.any_eq_true] at h <;> obtain ⟨q, hq, hqp⟩ := h <;>
    rw [decide_eq_true_iff] at hqp <;> subst hqp
  · exact List.take_subset _ _ hq
  · exact hq

theorem spawnFoodAux_total (cfg : GameConfig) (snake : List Point)
    (hw : 0 < cfg.width) (hh : 0 < cfg.height) :
    ∀ fuel food rng, ∃ out, spawnFoodAux cfg snake fuel food rng = some out := by
  intro fuel
  induction fuel with
  | zero => exact fun food rng => ⟨(food, rng), rfl⟩
  | succ n ih =>
    intro food rng
    have hw' : ¬ (cfg.width ≤ 0) := by omega
    have hh' : ¬ (cfg.height ≤ 0) := by omega
    unfold spawnFoodAux
    simp only [Rng.randomRange, if_neg hw', if_neg hh']
    split
    · exact ⟨_, rfl⟩
    · exact ih food _

theorem spawnFoodAux_mem (cfg : GameConfig) (snake : List Point) :
    ∀ fuel food rng food' rng',
      spawnFoodAux cfg snake fuel food rng = some (food', rng') →
      ∀ q ∈ food', q ∈ food ∨ q ∉ snake := by
  intro fuel
  induction fuel with
  | zero =>
    intro food rng food' rng' h q hq
    unfold spawnFoodAux at h
    obtain ⟨h1, h2⟩ := Prod.mk.injEq .. ▸ Option.some.injEq .. ▸ h
    exact Or.inl (h1 ▸ hq)
  | succ n ih =>
    intro food rng food' rng' h q hq
    unfold spawnFoodAux at h
    by_cases hw : cfg.width ≤ 0
    · simp [Rng.randomRange, if_pos hw] at h
    · by_cases hh : cfg.height ≤ 0
      · simp [Rng.randomRange, if_neg hw, if_pos hh] at h
      · simp only [Rng.randomRange, if_neg hw, if_neg hh] at h
        split at h
        · rename_i hcond
          obtain ⟨hf, hr⟩ := Prod.mk.injEq .. ▸ Option.some.injEq .. ▸ h
          rw [← hf] at hq
          rcases Finset.mem_insert.mp hq with hq | hq
          · exact Or.inr (hq ▸ hcond.1)
          · exact Or.inl hq
        · exact ih food _ food' rng' h q hq

theorem spawnFood_spec {s s' : GameState} (h : s.spawnFood = some s') :
    s'.cfg = s.cfg ∧ s'.snake = s.snake ∧ s'.dir = s.dir ∧
      s'.pending_dir = s.pending_dir ∧ s'.status = s.status ∧ s'.score = s.score ∧
      ∀ q ∈ s'.food, q ∈ s.food ∨ q ∉ s.snake := by
  unfold GameState.spawnFood at h
  cases h1 : spawnFoodAux s.cfg s.snake (maxAttempts s.cfg) s.food s.rng with
  | none => rw [h1] at h; exact absurd h (by simp)
  | some out =>
    rw [h1] at h
    obtain ⟨rfl⟩ := Option.some.injEq .. ▸ h
    refine ⟨rfl, rfl, rfl, rfl, rfl, rfl, ?_⟩
    exact spawnFoodAux_mem s.cfg s.snake _ s.food s.rng out.1 out.2 (by rw [h1]) 

theorem spawnFood_total (s : GameState) (hw : 0 < s.cfg.width) (hh : 0 < s.cfg.height) :
    ∃ s', s.spawnFood = some s' := by
  obtain ⟨out, hout⟩ :=
    spawnFoodAux_total s.cfg s.snake hw hh (maxAttempts s.cfg) s.food s.rng
  exact ⟨_, by unfold GameState.spawnFood; rw [hout]⟩

theorem GameState.tick_running {s : GameState} (hrun : s.status = .running) :
    s.tick = s.commitDir.tickMove := by
  unfold GameState.tick
  rw [if_neg (by simp [hrun])]

theorem tickMove_boundary {s : GameState}
    (hc : s.cfg.wrap_edges = false ∧ out_of_bounds s.cfg s.nextHeadPosition = true) :
    s.tickMove = some ({ s with status := .dead }, ⟨false, .dead, s.score⟩) := by
  unfold GameState.tickMove
  rw [if_pos hc]

theorem tickMove_collision {s : GameState}
    (hnobd : ¬ (s.cfg.wrap_edges = false ∧ out_of_bounds s.cfg s.nextHeadPosition = true))
    (hcol : collidesWithBody s.snake s.effCandidate
      (!(decide (s.effCandidate ∈ s.food))) = true) :
    s.tickMove = some ({ s with status := .running }, ⟨false, .running, s.score⟩) := by
  unfold GameState.tickMove
  rw [if_neg hnobd]
  simp only []
  rw [if_pos hcol]

theorem tickMove_eat {s s2 : GameState}
    (hnobd : ¬ (s.cfg.wrap_edges = false ∧ out_of_bounds s.cfg s.nextHeadPosition = true))
    (heat : s.effCandidate ∈ s.food)
    (hnocol : collidesWithBody s.snake s.effCandidate
      (!(decide (s.effCandidate ∈ s.food))) = false)
    (hspawn : GameState.spawnFood
      { s with
        snake := s.effCandidate :: s.snake
        food := s.food.erase s.effCandidate
        score := s.score + 1 } = some s2) :
    s.tickMove = some (s2, ⟨true, s2.status, s2.score⟩) := by
  unfold GameState.tickMove
  rw [if_neg hnobd]
  simp only []
  rw [if_neg (by rw [hnocol]; simp), if_pos (by exact decide_eq_true heat)]
  rw [hspawn]

theorem tickMove_moveOnly {s : GameState}
    (hnobd : ¬ (s.cfg.wrap_edges = false ∧ out_of_bounds s.cfg s.nextHeadPosition = true))
    (hneat : s.effCandidate ∉ s.food)
    (hnocol : collidesWithBody s.snake s.effCandidate
      (!(decide (s.effCandidate ∈ s.food))) = false) :
    s.tickMove = some ({ s with snake := (s.effCandidate :: s.snake).dropLast },
      ⟨false, s.status, s.score⟩) := by
  unfold GameState.tickMove
  rw [if_neg hnobd]
  simp only []
  rw [if_neg (by rw [hnocol]; simp), if_neg (by simp [hneat])]

/-- Claim C1: for a running state whose snake is on the board (as every
reachable running state's is), if the candidate next head cell — after the
direction commit and, when enabled, wrapping — collides with the snake body
under the tail-exclusion policy (tail excluded exactly when the candidate is
not on food), then `tick` is a no-op: it returns `ate_food = false` with
status Running and leaves the snake segments, food set and score exactly as
they were. -/
theorem c1_self_collision_noop (s : GameState)
    (hrun : s.status = .running)
    (hbnd : ∀ p ∈ s.snake, inBounds s.cfg p)
    (hcol : collidesWithBody s.snake s.commitDir.effCandidate
      (!(decide (s.commitDir.effCandidate ∈ s.food))) = true) :
    ∃ s', s.tick = some (s', ⟨false, .running, s.score⟩) ∧ s'.status = .running ∧
      s'.snake = s.snake ∧ s'.food = s.food ∧ s'.score = s.score := by
  have hsnake := GameState.commitDir_snake s
  have hfood := GameState.commitDir_food s
  have hcfg := GameState.commitDir_cfg s
  have hscore := GameState.commitDir_score s
  rw [GameState.tick_running hrun]
  rw [← hsnake, ← hfood] at hcol
  have hnobd : ¬ (s.commitDir.cfg.wrap_edges = false ∧
      out_of_bounds s.commitDir.cfg s.commitDir.nextHeadPosition = true) := by
    rintro ⟨hwf, hob⟩
    have heff : s.commitDir.effCandidate = s.commitDir.nextHeadPosition := by
      unfold GameState.effCandidate
      rw [hwf]
      simp
    have hmem : s.commitDir.effCandidate ∈ s.snake := by
      rw [← hsnake]
      exact collidesWithBody_mem hcol
    have hin : inBounds s.cfg s.commitDir.effCandidate := hbnd _ hmem
    rw [heff, ← hcfg] at hin
    rw [(out_of_bounds_eq_false_iff _ _).mpr hin] at hob
    exact absurd hob (by simp)
  have hres := tickMove_collision hnobd hcol
  rw [hscore] at hres
  exact ⟨_, hres, rfl, hsnake, hfood, rfl⟩

/-- Witness for C1: a concrete running snake about to hit its own body. -/
theorem c1_witness :
    (w1State.status = .running ∧
      (∀ p ∈ w1State.snake, inBounds w1State.cfg p) ∧
      collidesWithBody w1State.snake w1State.commitDir.effCandidate
        (!(decide (w1State.commitDir.effCandidate ∈ w1State.food))) = true) ∧
    ∃ s', w1State.tick = some (s', ⟨false, .running, w1State.score⟩) ∧
      s'.status = .running ∧ s'.snake = w1State.snake ∧ s'.food = w1State.food ∧
      s'.score = w1State.score :=
  ⟨⟨by decide, by decide, by decide⟩,
    c1_self_collision_noop w1State (by decide) (by decide) (by decide)⟩

/-- Claim C2: for a running state on a non-wrapping board whose committed
direction takes the head outside `[0,width) x [0,height)`, `tick` sets the
status to Dead, reports `ate_food = false` with the Dead status, and leaves
the snake segments, food set and score untouched. -/
theorem c2_boundary_death (s : GameState)
    (hrun : s.status = .running)
    (hwrap : s.cfg.wrap_edges = false)
    (hoob : out_of_bounds s.cfg s.commitDir.nextHeadPosition = true) :
    ∃ s', s.tick = some (s', ⟨false, .dead, s.score⟩) ∧ s'.status = .dead ∧
      s'.snake = s.snake ∧ s'.food = s.food ∧ s'.score = s.score := by
  have hcfg := GameState.commitDir_cfg s
  have hscore := GameState.commitDir_score s
  rw [GameState.tick_running hrun]
  have hres := tickMove_boundary (s := s.commitDir)
    ⟨by rw [hcfg]; exact hwrap, by rw [hcfg]; exact hoob⟩
  rw [hscore] at hres
  exact ⟨_, hres, rfl, GameState.commitDir_snake s, GameState.commitDir_food s, rfl⟩

/-- Witness for C2: the 3-by-3 wall-collision scenario of the test suite. -/
theorem c2_witness :
    (w2State.status = .running ∧ w2State.cfg.wrap_edges = false ∧
      out_of_bounds w2State.cfg w2State.commitDir.nextHeadPosition = true) ∧
    ∃ s', w2State.tick = some (s', ⟨false, .dead, w2State.score⟩) ∧ s'.status = .dead ∧
      s'.snake = w2State.snake ∧ s'.food = w2State.food ∧ s'.score = w2State.score :=
  ⟨⟨by decide, by decide, by decide⟩,
    c2_boundary_death w2State (by decide) (by decide) (by decide)⟩

theorem tickMove_total (s : GameState) (hw : 0 < s.cfg.width) (hh : 0 < s.cfg.height) :
    ∃ s' r, s.tickMove = some (s', r) ∧ s'.cfg = s.cfg ∧ s'.dir = s.dir ∧
      s'.pending_dir = s.pending_dir ∧
      (s.cfg.wrap_edges = true → s.status = .running → s'.status = .running) := by
  by_cases hbd : s.cfg.wrap_edges = false ∧ out_of_bounds s.cfg s.nextHeadPosition = true
  · rw [tickMove_boundary hbd]
    exact ⟨_, _, rfl, rfl, rfl, rfl, fun hwr _ => absurd hbd.1 (by rw [hwr]; simp)⟩
  · by_cases hcol : collidesWithBody s.snake s.effCandidate
        (!(decide (s.effCandidate ∈ s.food))) = true
    · rw [tickMove_collision hbd hcol]
      exact ⟨_, _, rfl, rfl, rfl, rfl, fun _ _ => rfl⟩
    · rw [Bool.not_eq_true] at hcol
      by_cases heat : s.effCandidate ∈ s.food
      · obtain ⟨s2, hs2⟩ := spawnFood_total
          { s with
            snake := s.effCandidate :: s.snake
            food := s.food.erase s.effCandidate
            score := s.score + 1 } hw hh
        obtain ⟨hc2, _, hd2, hp2, hst2, _, _⟩ := spawnFood_spec hs2
        rw [tickMove_eat hbd heat hcol hs2]
        exact ⟨_, _, rfl, hc2, hd2, hp2, fun _ hr => hst2 ▸ hr⟩
      · rw [tickMove_moveOnly hbd heat hcol]
        exact ⟨_, _, rfl, rfl, rfl, rfl, fun _ hr => hr⟩

/-- Claim C4: queuing the 180-degree opposite of the committed direction and
then stepping leaves the committed direction unchanged (the pending request
is consumed and silently discarded); queuing any other direction and
stepping makes it the new committed direction. -/
theorem c4_direction_commit (s : GameState) (d : Direction)
    (hrun : s.status = .running)
    (hw : 0 < s.cfg.width) (hh : 0 < s.cfg.height) :
    ∃ s' r, (s.queueDirection d).tick = some (s', r) ∧ s'.pending_dir = none ∧
      (d.isOpposite s.dir = true → s'.dir = s.dir) ∧
      (d.isOpposite s.dir = false → s'.dir = d) := by
  have hq : (s.queueDirection d).status = .running := hrun
  rw [GameState.tick_running hq]
  have hdir : (s.queueDirection d).commitDir.dir = if d.isOpposite s.dir then s.dir else d := by
    simp only [GameState.queueDirection, GameState.commitDir]
    split <;> rfl
  have hcfg : (s.queueDirection d).commitDir.cfg = s.cfg :=
    GameState.commitDir_cfg (s.queueDirection d)
  obtain ⟨s', r, heq, _, hd', hp', _⟩ :=
    tickMove_total (s.queueDirection d).commitDir (by rw [hcfg]; exact hw)
      (by rw [hcfg]; exact hh)
  refine ⟨s', r, heq, by rw [hp', GameState.commitDir_pending], ?_, ?_⟩
  · intro hopp
    rw [hd', hdir, if_pos hopp]
  · intro hnopp
    rw [hd', hdir, if_neg (by rw [hnopp]; simp)]

/-- Witness for C4: from `w2State` (heading right), queuing Left is
discarded while queuing Up commits. -/
theorem c4_witness :
    (w2State.status = .running ∧ (0 : Int) < w2State.cfg.width ∧
      (0 : Int) < w2State.cfg.height) ∧
    (∃ s' r, (w2State.queueDirection .left).tick = some (s', r) ∧ s'.pending_dir = none ∧
      (Direction.isOpposite .left w2State.dir = true → s'.dir = w2State.dir) ∧
      (Direction.isOpposite .left w2State.dir = false → s'.dir = .left)) ∧
    ∃ s' r, (w2State.queueDirection .up).tick = some (s', r) ∧ s'.pending_dir = none ∧
      (Direction.isOpposite .up w2State.dir = true → s'.dir = w2State.dir) ∧
      (Direction.isOpposite .up w2State.dir = false → s'.dir = .up) :=
  ⟨⟨by decide, by decide, by decide⟩,
    c4_direction_commit w2State .left (by decide) (by decide) (by decide),
    c4_direction_commit w2State .up (by decide) (by decide) (by decide)⟩

/-- Claim C3: in a running game (with the spec's positive board dimensions)
whose candidate head cell — after commit and wrapping — lands on food
without colliding with the body, `tick` raises the score by exactly 1, grows
the snake by exactly 1 segment, removes that coordinate from the food set,
and reports `ate_food = true`; a non-eating, non-colliding, non-boundary
step keeps the snake length unchanged and reports `ate_food = false`. -/
theorem c3_eating_effects :
    (∀ s : GameState, 0 < s.cfg.width → 0 < s.cfg.height → s.status = .running →
      s.commitDir.effCandidate ∈ s.food →
      collidesWithBody s.snake s.commitDir.effCandidate
        (!(decide (s.commitDir.effCandidate ∈ s.food))) = false →
      ¬ (s.cfg.wrap_edges = false ∧
        out_of_bounds s.cfg s.commitDir.nextHeadPosition = true) →
      ∃ s' r, s.tick = some (s', r) ∧ r.ate_food = true ∧
        s'.score = s.score + 1 ∧ s'.snake.length = s.snake.length + 1 ∧
        s.commitDir.effCandidate ∉ s'.food) ∧
    (∀ s : GameState, s.status = .running →
      s.commitDir.effCandidate ∉ s.food →
      collidesWithBody s.snake s.commitDir.effCandidate
        (!(decide (s.commitDir.effCandidate ∈ s.food))) = false →
      ¬ (s.cfg.wrap_edges = false ∧
        out_of_bounds s.cfg s.commitDir.nextHeadPosition = true) →
      ∃ s' r, s.tick = some (s', r) ∧ r.ate_food = false ∧
        s'.snake.length = s.snake.length) := by
  constructor
  · intro s hw hh hrun heat hnocol hnobd
    have hsnake := GameState.commitDir_snake s
    have hfood := GameState.commitDir_food s
    have hcfg := GameState.commitDir_cfg s
    have hscore := GameState.commitDir_score s
    rw [← hfood] at heat
    rw [← hsnake, ← hfood] at hnocol
    rw [← hcfg] at hnobd
    obtain ⟨s2, hs2⟩ := spawnFood_total
      { s.commitDir with
        snake := s.commitDir.effCandidate :: s.commitDir.snake
        food := s.commitDir.food.erase s.commitDir.effCandidate
        score := s.commitDir.score + 1 }
      (by show 0 < s.commitDir.cfg.width; rw [hcfg]; exact hw)
      (by show 0 < s.commitDir.cfg.height; rw [hcfg]; exact hh)
    obtain ⟨_, hsn2, _, _, _, hsc2, hmem2⟩ := spawnFood_spec hs2
    rw [GameState.tick_running hrun, tickMove_eat hnobd heat hnocol hs2]
    refine ⟨s2, _, rfl, rfl, ?_, ?_, ?_⟩
    · rw [hsc2]
      show s.commitDir.score + 1 = s.score + 1
      rw [hscore]
    · rw [hsn2]
      show (s.commitDir.effCandidate :: s.commitDir.snake).length = s.snake.length + 1
      rw [List.length_cons, hsnake]
    · intro habs
      rcases hmem2 _ habs with hin | hnin
      · exact absurd hin (Finset.not_mem_erase _ _)
      · exact hnin (List.mem_cons_self _ _)
  · intro s hrun hneat hnocol hnobd
    have hsnake := GameState.commitDir_snake s
    have hfood := GameState.commitDir_food s
    have hcfg := GameState.commitDir_cfg s
    rw [← hfood] at hneat
    rw [← hsnake, ← hfood] at hnocol
    rw [← hcfg] at hnobd
    rw [GameState.tick_running hrun, tickMove_moveOnly hnobd hneat hnocol]
    refine ⟨_, _, rfl, rfl, ?_⟩
    show (s.commitDir.effCandidate :: s.commitDir.snake).dropLast.length = s.snake.length
    rw [List.length_dropLast, List.length_cons, hsnake]
    omega

/-- Witness for C3: a concrete eating step and a concrete plain move. -/
theorem c3_witness :
    ((0 : Int) < w3EatState.cfg.width ∧ (0 : Int) < w3EatState.cfg.height ∧
      w3EatState.status = .running ∧
      w3EatState.commitDir.effCandidate ∈ w3EatState.food ∧
      collidesWithBody w3EatState.snake w3EatState.commitDir.effCandidate
        (!(decide (w3EatState.commitDir.effCandidate ∈ w3EatState.food))) = false ∧
      ¬ (w3EatState.cfg.wrap_edges = false ∧
        out_of_bounds w3EatState.cfg w3EatState.commitDir.nextHeadPosition = true)) ∧
    (∃ s' r, w3EatState.tick = some (s', r) ∧ r.ate_food = true ∧
      s'.score = w3EatState.score + 1 ∧
      s'.snake.length = w3EatState.snake.length + 1 ∧
      w3EatState.commitDir.effCandidate ∉ s'.food) ∧
    ∃ s' r, w3MoveState.tick = some (s', r) ∧ r.ate_food = false ∧
      s'.snake.length = w3MoveState.snake.length :=
  ⟨⟨by decide, by decide, by decide, by decide, by decide, by decide⟩,
    c3_eating_effects.1 w3EatState (by decide) (by decide) (by decide) (by decide)
      (by decide) (by decide),
    c3_eating_effects.2 w3MoveState (by decide) (by decide) (by decide) (by decide)⟩

theorem headI_dropLast_cons (a : Point) (l : List Point) (h : l ≠ []) :
    ((a :: l).dropLast).headI = a := by
  cases l with
  | nil => exact absurd rfl h
  | cons b t => rfl

/-- Claim C5: on a wrapping board, the candidate cell `tick` works with maps
each out-of-range coordinate to the opposite edge on the same step
(`x = -1` to `width-1`, `x = width` to `0`, and analogously for `y`), the
status stays Running (wrapping disables boundary death), and whenever the
wrapped cell is collision-free the head reappears there this very step. -/
theorem c5_wrap_edges (s : GameState)
    (hrun : s.status = .running) (hwrap : s.cfg.wrap_edges = true)
    (hw : 0 < s.cfg.width) (hh : 0 < s.cfg.height) (hne : s.snake ≠ []) :
    ∃ s' r, s.tick = some (s', r) ∧ s'.status = .running ∧
      (s.commitDir.nextHeadPosition.x = -1 ∧ 0 ≤ s.commitDir.nextHeadPosition.y ∧
          s.commitDir.nextHeadPosition.y < s.cfg.height →
        s.commitDir.effCandidate = ⟨s.cfg.width - 1, s.commitDir.nextHeadPosition.y⟩) ∧
      (s.commitDir.nextHeadPosition.x = s.cfg.width ∧ 0 ≤ s.commitDir.nextHeadPosition.y ∧
          s.commitDir.nextHeadPosition.y < s.cfg.height →
        s.commitDir.effCandidate = ⟨0, s.commitDir.nextHeadPosition.y⟩) ∧
      (s.commitDir.nextHeadPosition.y = -1 ∧ 0 ≤ s.commitDir.nextHeadPosition.x ∧
          s.commitDir.nextHeadPosition.x < s.cfg.width →
        s.commitDir.effCandidate = ⟨s.commitDir.nextHeadPosition.x, s.cfg.height - 1⟩) ∧
      (s.commitDir.nextHeadPosition.y = s.cfg.height ∧ 0 ≤ s.commitDir.nextHeadPosition.x ∧
          s.commitDir.nextHeadPosition.x < s.cfg.width →
        s.commitDir.effCandidate = ⟨s.commitDir.nextHeadPosition.x, 0⟩) ∧
      (collidesWithBody s.snake s.commitDir.effCandidate
          (!(decide (s.commitDir.effCandidate ∈ s.food))) = false →
        s'.snake.headI = s.commitDir.effCandidate) := by
  have hsnake := GameState.commitDir_snake s
  have hfood := GameState.commitDir_food s
  have hcfg := GameState.commitDir_cfg s
  have hwrap' : s.commitDir.cfg.wrap_edges = true := by rw [hcfg]; exact hwrap
  have heff : s.commitDir.effCandidate = wrapPoint s.cfg s.commitDir.nextHeadPosition := by
    unfold GameState.effCandidate
    rw [hwrap', hcfg]
    simp
  have hwrapx : ∀ q : Point, ∀ hq1 : q.x = -1, 0 ≤ q.y → q.y < s.cfg.height →
      wrapPoint s.cfg q = ⟨s.cfg.width - 1, q.y⟩ := by
    intro q h1 h2 h3
    unfold wrapPoint
    rw [if_pos (by omega), if_neg (by omega), if_neg (by omega)]
  have hwrapx2 : ∀ q : Point, ∀ hq1 : q.x = s.cfg.width, 0 ≤ q.y → q.y < s.cfg.height →
      wrapPoint s.cfg q = ⟨0, q.y⟩ := by
    intro q h1 h2 h3
    unfold wrapPoint
    rw [if_neg (by omega), if_pos (by omega), if_neg (by omega), if_neg (by omega)]
  have hwrapy : ∀ q : Point, ∀ hq1 : q.y = -1, 0 ≤ q.x → q.x < s.cfg.width →
      wrapPoint s.cfg q = ⟨q.x, s.cfg.height - 1⟩ := by
    intro q h1 h2 h3
    unfold wrapPoint
    rw [if_neg (by omega), if_neg (by omega), if_pos (by omega)]
  have hwrapy2 : ∀ q : Point, ∀ hq1 : q.y = s.cfg.height, 0 ≤ q.x → q.x < s.cfg.width →
      wrapPoint s.cfg q = ⟨q.x, 0⟩ := by
    intro q h1 h2 h3
    unfold wrapPoint
    rw [if_neg (by omega), if_neg (by omega), if_neg (by omega), if_pos (by omega)]
  have hnobd : ¬ (s.commitDir.cfg.wrap_edges = false ∧
      out_of_bounds s.commitDir.cfg s.commitDir.nextHeadPosition = true) := by
    rintro ⟨h1, -⟩
    rw [hwrap'] at h1
    exact absurd h1 (by simp)
  rw [GameState.tick_running hrun]
  by_cases hcol : collidesWithBody s.commitDir.snake s.commitDir.effCandidate
      (!(decide (s.commitDir.effCandidate ∈ s.commitDir.food))) = true
  · rw [tickMove_collision hnobd hcol]
    refine ⟨_, _, rfl, rfl,
      fun ⟨h1, h2, h3⟩ => heff.trans (hwrapx _ h1 h2 h3),
      fun ⟨h1, h2, h3⟩ => heff.trans (hwrapx2 _ h1 h2 h3),
      fun ⟨h1, h2, h3⟩ => heff.trans (hwrapy _ h1 h2 h3),
      fun ⟨h1, h2, h3⟩ => heff.trans (hwrapy2 _ h1 h2 h3), ?_⟩
    intro hnocol
    rw [← hsnake, ← hfood] at hnocol
    rw [hnocol] at hcol
    exact absurd hcol (by simp)
  · rw [Bool.not_eq_true] at hcol
    by_cases heat : s.commitDir.effCandidate ∈ s.commitDir.food
    · obtain ⟨s2, hs2⟩ := spawnFood_total
        { s.commitDir with
          snake := s.commitDir.effCandidate :: s.commitDir.snake
          food := s.commitDir.food.erase s.commitDir.effCandidate
          score := s.commitDir.score + 1 }
        (by show 0 < s.commitDir.cfg.width; rw [hcfg]; exact hw)
        (by show 0 < s.commitDir.cfg.height; rw [hcfg]; exact hh)
      obtain ⟨_, hsn2, _, _, hst2, _, _⟩ := spawnFood_spec hs2
      rw [tickMove_eat hnobd heat hcol hs2]
      refine ⟨s2, _, rfl, ?_,
        fun ⟨h1, h2, h3⟩ => heff.trans (hwrapx _ h1 h2 h3),
        fun ⟨h1, h2, h3⟩ => heff.trans (hwrapx2 _ h1 h2 h3),
        fun ⟨h1, h2, h3⟩ => heff.trans (hwrapy _ h1 h2 h3),
        fun ⟨h1, h2, h3⟩ => heff.trans (hwrapy2 _ h1 h2 h3), ?_⟩
      · rw [hst2]
        show s.commitDir.status = .running
        rw [GameState.commitDir_status]
        exact hrun
      · intro _
        rw [hsn2]
        rfl
    · rw [tickMove_moveOnly hnobd heat hcol]
      refine ⟨_, _, rfl, ?_,
        fun ⟨h1, h2, h3⟩ => heff.trans (hwrapx _ h1 h2 h3),
        fun ⟨h1, h2, h3⟩ => heff.trans (hwrapx2 _ h1 h2 h3),
        fun ⟨h1, h2, h3⟩ => heff.trans (hwrapy _ h1 h2 h3),
        fun ⟨h1, h2, h3⟩ => heff.trans (hwrapy2 _ h1 h2 h3), ?_⟩
      · show s.commitDir.status = .running
        rw [GameState.commitDir_status]
        exact hrun
      · intro _
        show ((s.commitDir.effCandidate :: s.commitDir.snake).dropLast).headI =
          s.commitDir.effCandidate
        exact headI_dropLast_cons _ _ (by rw [hsnake]; exact hne)

/-- Witness for C5: a head on the right edge of a wrapping 4-by-4 board
reappears at `x = 0`. -/
theorem c5_witness :
    (w5State.status = .running ∧ w5State.cfg.wrap_edges = true ∧
      (0 : Int) < w5State.cfg.width ∧ (0 : Int) < w5State.cfg.height ∧
      w5State.snake ≠ []) ∧
    ∃ s' r, w5State.tick = some (s', r) ∧ s'.status = .running ∧
      (w5State.commitDir.nextHeadPosition.x = -1 ∧ 0 ≤ w5State.commitDir.nextHeadPosition.y ∧
          w5State.commitDir.nextHeadPosition.y < w5State.cfg.height →
        w5State.commitDir.effCandidate =
          ⟨w5State.cfg.width - 1, w5State.commitDir.nextHeadPosition.y⟩) ∧
      (w5State.commitDir.nextHeadPosition.x = w5State.cfg.width ∧
          0 ≤ w5State.commitDir.nextHeadPosition.y ∧
          w5State.commitDir.nextHeadPosition.y < w5State.cfg.height →
        w5State.commitDir.effCandidate = ⟨0, w5State.commitDir.nextHeadPosition.y⟩) ∧
      (w5State.commitDir.nextHeadPosition.y = -1 ∧ 0 ≤ w5State.commitDir.nextHeadPosition.x ∧
          w5State.commitDir.nextHeadPosition.x < w5State.cfg.width →
        w5State.commitDir.effCandidate =
          ⟨w5State.commitDir.nextHeadPosition.x, w5State.cfg.height - 1⟩) ∧
      (w5State.commitDir.nextHeadPosition.y = w5State.cfg.height ∧
          0 ≤ w5State.commitDir.nextHeadPosition.x ∧
          w5State.commitDir.nextHeadPosition.x < w5State.cfg.width →
        w5State.commitDir.effCandidate = ⟨w5State.commitDir.nextHeadPosition.x, 0⟩) ∧
      (collidesWithBody w5State.snake w5State.commitDir.effCandidate
          (!(decide (w5State.commitDir.effCandidate ∈ w5State.food))) = false →
        s'.snake.headI = w5State.commitDir.effCandidate) :=
  ⟨⟨by decide, by decide, by decide, by decide, by decide⟩,
    c5_wrap_edges w5State (by decide) (by decide) (by decide) (by decide) (by decide)⟩

/-- Claim C7: the simulation is deterministic — two games created from the
same config and seed and driven through the same call sequence produce
identical states and identical `TickResult`s — and the pseudo-random stream
is advanced only inside food spawning: queueing a direction never touches
the generator, and neither does any tick that spawns no food (every
`ate_food = false` tick). -/
theorem c7_determinism :
    (∀ (cfg : GameConfig) (seed : Nat) (evs : List GameEvent)
        (g1 g2 : Option GameState),
      g1 = GameState.withSeed cfg seed → g2 = GameState.withSeed cfg seed →
      g1.bind (fun s => runTrace s evs) = g2.bind (fun s => runTrace s evs)) ∧
    (∀ (s : GameState) (d : Direction), (s.queueDirection d).rng = s.rng) ∧
    (∀ (s s' : GameState) (r : TickResult),
      s.tick = some (s', r) → r.ate_food = false → s'.rng = s.rng) := by
  refine ⟨?_, fun s d => rfl, ?_⟩
  · intro cfg seed evs g1 g2 h1 h2
    rw [h1, h2]
  · intro s s' r htick hate
    by_cases hd : s.status = .dead
    · unfold GameState.tick at htick
      rw [if_pos hd] at htick
      simp only [Option.some.injEq, Prod.mk.injEq] at htick
      rw [← htick.1]
    · have hrun : s.status = .running := by
        cases h : s.status
        · rfl
        · exact absurd h hd
      rw [GameState.tick_running hrun] at htick
      have hrng := GameState.commitDir_rng s
      by_cases hbd : s.commitDir.cfg.wrap_edges = false ∧
          out_of_bounds s.commitDir.cfg s.commitDir.nextHeadPosition = true
      · rw [tickMove_boundary hbd] at htick
        simp only [Option.some.injEq, Prod.mk.injEq] at htick
        rw [← htick.1]
        exact hrng
      · by_cases hcol : collidesWithBody s.commitDir.snake s.commitDir.effCandidate
            (!(decide (s.commitDir.effCandidate ∈ s.commitDir.food))) = true
        · rw [tickMove_collision hbd hcol] at htick
          simp only [Option.some.injEq, Prod.mk.injEq] at htick
          rw [← htick.1]
          exact hrng
        · rw [Bool.not_eq_true] at hcol
          by_cases heat : s.commitDir.effCandidate ∈ s.commitDir.food
          · exfalso
            unfold GameState.tickMove at htick
            rw [if_neg hbd] at htick
            simp only [] at htick
            rw [if_neg (by rw [hcol]; simp), if_pos (by exact decide_eq_true heat)] at htick
            cases hsp : GameState.spawnFood
                { s.commitDir with
                  snake := s.commitDir.effCandidate :: s.commitDir.snake
                  food := s.commitDir.food.erase s.commitDir.effCandidate
                  score := s.commitDir.score + 1 } with
            | none => rw [hsp] at htick; exact absurd htick (by simp)
            | some s2 =>
              rw [hsp] at htick
              simp only [Option.some.injEq, Prod.mk.injEq] at htick
              rw [← htick.2] at hate
              exact absurd hate (by simp)
          · rw [tickMove_moveOnly hbd heat hcol] at htick
            simp only [Option.some.injEq, Prod.mk.injEq] at htick
            rw [← htick.1]
            exact hrng

/-- Witness for C7: a concrete replay comparison, a concrete queue call, and
the concrete boundary-death tick of `w2State` (which spawns no food). -/
theorem c7_witness :
    (GameState.withSeed d7cfg 42).bind (fun s => runTrace s [GameEvent.tick]) =
      (GameState.withSeed d7cfg 42).bind (fun s => runTrace s [GameEvent.tick]) ∧
    (w2State.queueDirection .up).rng = w2State.rng ∧
    w2State'.rng = w2State.rng :=
  ⟨c7_determinism.1 d7cfg 42 [GameEvent.tick] _ _ rfl rfl,
    c7_determinism.2.1 w2State .up,
    c7_determinism.2.2 w2State w2State' ⟨false, .dead, 0⟩ rfl rfl⟩

theorem tdiv_eq_ediv_on_nonneg (a b : Int) (ha : 0 ≤ a) (hb : 0 ≤ b) :
    Int.tdiv a b = a / b := by
  match a, ha with
  | Int.ofNat m, _ =>
    match b, hb with
    | Int.ofNat n, _ => rfl

theorem tmod_eq_emod_on_nonneg (a b : Int) (ha : 0 ≤ a) (hb : 0 ≤ b) :
    Int.tmod a b = a % b := by
  match a, ha with
  | Int.ofNat m, _ =>
    match b, hb with
    | Int.ofNat n, _ => rfl

theorem usizeToI32_small {m : Nat} (h : m < 2 ^ 31) : usizeToI32 m = (m : Int) := by
  unfold usizeToI32
  rw [if_pos (by omega)]
  omega

theorem initialSnake_length (cfg : GameConfig) (h : max cfg.initial_len 1 < 2 ^ 31) :
    (initialSnake cfg).length = max cfg.initial_len 1 := by
  unfold initialSnake
  rw [List.length_map, List.length_range, usizeToI32_small h]
  omega

theorem initialSnake_headI (cfg : GameConfig) (h : max cfg.initial_len 1 < 2 ^ 31) :
    (initialSnake cfg).headI = ⟨Int.tdiv cfg.width 2, Int.tdiv cfg.height 2⟩ := by
  unfold initialSnake
  rw [usizeToI32_small h, Int.toNat_natCast]
  obtain ⟨m, hm⟩ : ∃ m, max cfg.initial_len 1 = m + 1 :=
    ⟨max cfg.initial_len 1 - 1, by omega⟩
  rw [hm, List.range_succ_eq_map]
  simp

theorem initialSnake_inBounds (cfg : GameConfig)
    (hw : 0 < cfg.width) (hh : 0 < cfg.height)
    (hlen : (max cfg.initial_len 1 : Int) ≤ Int.tdiv cfg.width 2 + 1)
    (hsz : max cfg.initial_len 1 < 2 ^ 31) :
    ∀ p ∈ initialSnake cfg, inBounds cfg p := by
  intro p hp
  unfold initialSnake at hp
  rw [List.mem_map] at hp
  obtain ⟨i, hi, rfl⟩ := hp
  rw [List.mem_range, usizeToI32_small hsz, Int.toNat_natCast] at hi
  have hdw := tdiv_eq_ediv_on_nonneg cfg.width 2 (by omega) (by omega)
  have hdh := tdiv_eq_ediv_on_nonneg cfg.height 2 (by omega) (by omega)
  unfold inBounds
  dsimp only
  refine ⟨?_, ?_, ?_, ?_⟩ <;> omega

theorem reset_spec {s s' : GameState} (h : s.reset = some s') :
    s'.cfg = s.cfg ∧ s'.status = .running ∧ s'.score = 0 ∧ s'.dir = .right ∧
      s'.pending_dir = none ∧ s'.snake = initialSnake s.cfg ∧
      ∀ q ∈ s'.food, q ∉ initialSnake s.cfg := by
  unfold GameState.reset at h
  obtain ⟨hc, hsn, hd, hp, hst, hsc, hmem⟩ := spawnFood_spec h
  refine ⟨hc, hst, hsc, hd, hp, hsn, ?_⟩
  intro q hq
  rcases hmem q hq with hin | hnin
  · exact absurd hin (Finset.not_mem_empty q)
  · exact hnin

theorem reset_total (s : GameState) (hw : 0 < s.cfg.width) (hh : 0 < s.cfg.height) :
    ∃ s', s.reset = some s' := by
  unfold GameState.reset
  exact spawnFood_total _ hw hh

theorem effCandidate_inBounds (c : GameState)
    (hw : 0 < c.cfg.width) (hh : 0 < c.cfg.height)
    (hnobd : ¬ (c.cfg.wrap_edges = false ∧
      out_of_bounds c.cfg c.nextHeadPosition = true)) :
    inBounds c.cfg c.effCandidate := by
  unfold GameState.effCandidate
  by_cases hwr : c.cfg.wrap_edges = true
  · rw [hwr]
    simp only [if_true]
    exact wrapPoint_inBounds c.cfg _ hw hh
  · have hwf : c.cfg.wrap_edges = false := by
      cases hb : c.cfg.wrap_edges
      · rfl
      · exact absurd hb hwr
    rw [hwf]
    simp only [Bool.false_eq_true, if_false]
    have : out_of_bounds c.cfg c.nextHeadPosition = false := by
      cases hb : out_of_bounds c.cfg c.nextHeadPosition
      · rfl
      · exact absurd ⟨hwf, hb⟩ hnobd
    exact (out_of_bounds_eq_false_iff _ _).mp this

theorem GameInv_commitDir {s : GameState} (hinv : GameInv s) : GameInv s.commitDir := by
  obtain ⟨h1, h2, h3⟩ := hinv
  refine ⟨?_, ?_, ?_⟩
  · rw [GameState.commitDir_snake]; exact h1
  · rw [GameState.commitDir_status, GameState.commitDir_snake, GameState.commitDir_cfg]
    exact h2
  · rw [GameState.commitDir_food, GameState.commitDir_snake]
    exact h3

theorem tickMove_inv {c s' : GameState} {r : TickResult}
    (hw : 0 < c.cfg.width) (hh : 0 < c.cfg.height)
    (hrun : c.status = .running)
    (hinv : GameInv c) (h : c.tickMove = some (s', r)) :
    GameInv s' ∧ s'.cfg = c.cfg := by
  obtain ⟨h1, h2, h3⟩ := hinv
  by_cases hbd : c.cfg.wrap_edges = false ∧ out_of_bounds c.cfg c.nextHeadPosition = true
  · rw [tickMove_boundary hbd] at h
    simp only [Option.some.injEq, Prod.mk.injEq] at h
    rw [← h.1]
    exact ⟨⟨h1, fun habs => absurd habs (by simp), h3⟩, rfl⟩
  · have heffb : inBounds c.cfg c.effCandidate := effCandidate_inBounds c hw hh hbd
    by_cases hcol : collidesWithBody c.snake c.effCandidate
        (!(decide (c.effCandidate ∈ c.food))) = true
    · rw [tickMove_collision hbd hcol] at h
      simp only [Option.some.injEq, Prod.mk.injEq] at h
      rw [← h.1]
      exact ⟨⟨h1, fun _ => h2 hrun, h3⟩, rfl⟩
    · rw [Bool.not_eq_true] at hcol
      by_cases heat : c.effCandidate ∈ c.food
      · unfold GameState.tickMove at h
        rw [if_neg hbd] at h
        simp only [] at h
        rw [if_neg (by rw [hcol]; simp), if_pos (by exact decide_eq_true heat)] at h
        cases hsp : GameState.spawnFood
            { c with
              snake := c.effCandidate :: c.snake
              food := c.food.erase c.effCandidate
              score := c.score + 1 } with
        | none => rw [hsp] at h; exact absurd h (by simp)
        | some s2 =>
          rw [hsp] at h
          simp only [Option.some.injEq, Prod.mk.injEq] at h
          rw [← h.1]
          obtain ⟨hc2, hsn2, _, _, hst2, _, hmem2⟩ := spawnFood_spec hsp
          refine ⟨⟨?_, ?_, ?_⟩, hc2⟩
          · rw [hsn2]
            exact List.cons_ne_nil _ _
          · intro _ p hp
            rw [hsn2] at hp
            rw [hc2]
            rcases List.mem_cons.mp hp with rfl | hp
            · exact heffb
            · exact h2 hrun p hp
          · intro q hq
            rw [hsn2]
            rcases hmem2 q hq with hin | hnin
            · intro habs
              rcases List.mem_cons.mp habs with rfl | habs
              · exact absurd hin (Finset.not_mem_erase _ _)
              · exact h3 q (Finset.mem_of_mem_erase hin) habs
            · exact hnin
      · rw [tickMove_moveOnly hbd heat hcol] at h
        simp only [Option.some.injEq, Prod.mk.injEq] at h
        rw [← h.1]
        refine ⟨⟨?_, ?_, ?_⟩, rfl⟩
        · have : ((c.effCandidate :: c.snake).dropLast).length = c.snake.length := by
            rw [List.length_dropLast, List.length_cons]
            omega
          intro habs
          have habs2 : (c.effCandidate :: c.snake).dropLast = [] := habs
          rw [habs2] at this
          simp only [List.length_nil] at this
          exact h1 (List.eq_nil_of_length_eq_zero (by omega))
        · intro _ p hp
          have hp' := List.dropLast_subset _ hp
          rcases List.mem_cons.mp hp' with rfl | hp'
          · exact heffb
          · exact h2 hrun p hp'
        · intro q hq habs
          have habs' := List.dropLast_subset _ habs
          rcases List.mem_cons.mp habs' with rfl | habs'
          · exact heat hq
          · exact h3 q hq habs'

theorem tick_inv {s s' : GameState} {r : TickResult}
    (hw : 0 < s.cfg.width) (hh : 0 < s.cfg.height)
    (hinv : GameInv s) (h : s.tick = some (s', r)) :
    GameInv s' ∧ s'.cfg = s.cfg := by
  by_cases hd : s.status = .dead
  · unfold GameState.tick at h
    rw [if_pos hd] at h
    simp only [Option.some.injEq, Prod.mk.injEq] at h
    rw [← h.1]
    exact ⟨hinv, rfl⟩
  · have hrun : s.status = .running := by
      cases hb : s.status
      · rfl
      · exact absurd hb hd
    rw [GameState.tick_running hrun] at h
    have hcfg := GameState.commitDir_cfg s
    have hst := GameState.commitDir_status s
    obtain ⟨hi, he⟩ := tickMove_inv (c := s.commitDir)
      (by rw [hcfg]; exact hw) (by rw [hcfg]; exact hh)
      (by rw [hst]; exact hrun) (GameInv_commitDir hinv) h
    exact ⟨hi, by rw [he, hcfg]⟩

theorem reset_inv {s s' : GameState}
    (hw : 0 < s.cfg.width) (hh : 0 < s.cfg.height)
    (hl1 : 1 ≤ s.cfg.initial_len)
    (hl2 : (s.cfg.initial_len : Int) ≤ Int.tdiv s.cfg.width 2 + 1)
    (hsz : s.cfg.width < 2 ^ 31)
    (h : s.reset = some s') : GameInv s' ∧ s'.cfg = s.cfg := by
  have hdw := tdiv_eq_ediv_on_nonneg s.cfg.width 2 (by omega) (by omega)
  have hm : max s.cfg.initial_len 1 < 2 ^ 31 := by
    rw [hdw] at hl2
    omega
  obtain ⟨hc, hst, hsc, hd, hp, hsn, hfd⟩ := reset_spec h
  refine ⟨⟨?_, ?_, ?_⟩, hc⟩
  · rw [hsn]
    have := initialSnake_length s.cfg hm
    intro habs
    rw [habs] at this
    simp at this
    omega
  · intro _ p hp
    rw [hsn] at hp
    rw [hc]
    refine initialSnake_inBounds s.cfg hw hh ?_ hm p hp
    rw [hdw]
    rw [hdw] at hl2
    omega
  · intro q hq
    rw [hsn]
    exact hfd q hq

theorem stepEvent_inv {s s' : GameState} {e : GameEvent}
    (hw : 0 < s.cfg.width) (hh : 0 < s.cfg.height)
    (hl1 : 1 ≤ s.cfg.initial_len)
    (hl2 : (s.cfg.initial_len : Int) ≤ Int.tdiv s.cfg.width 2 + 1)
    (hsz : s.cfg.width < 2 ^ 31)
    (hinv : GameInv s) (h : s.stepEvent e = some s') :
    GameInv s' ∧ s'.cfg = s.cfg := by
  cases e with
  | queue d =>
    unfold GameState.stepEvent at h
    simp only [Option.some.injEq] at h
    rw [← h]
    exact ⟨hinv, rfl⟩
  | tick =>
    unfold GameState.stepEvent at h
    cases ht : s.tick with
    | none => rw [ht] at h; exact absurd h (by simp)
    | some p =>
      rw [ht] at h
      have h' : p.1 = s' := by simpa using h
      rw [← h']
      exact tick_inv hw hh hinv (by rw [ht])
  | reset =>
    unfold GameState.stepEvent at h
    exact reset_inv hw hh hl1 hl2 hsz h

theorem runEvents_inv {cfg : GameConfig}
    (hw : 0 < cfg.width) (hh : 0 < cfg.height)
    (hl1 : 1 ≤ cfg.initial_len)
    (hl2 : (cfg.initial_len : Int) ≤ Int.tdiv cfg.width 2 + 1)
    (hsz : cfg.width < 2 ^ 31) :
    ∀ (evs : List GameEvent) (s s' : GameState), s.cfg = cfg → GameInv s →
      runEvents s evs = some s' → GameInv s' ∧ s'.cfg = cfg := by
  intro evs
  induction evs with
  | nil =>
    intro s s' hc hinv h
    unfold runEvents at h
    simp only [Option.some.injEq] at h
    rw [← h]
    exact ⟨hinv, hc⟩
  | cons e es ih =>
    intro s s' hc hinv h
    unfold runEvents at h
    cases hstep : s.stepEvent e with
    | none => rw [hstep] at h; exact absurd h (by simp)
    | some s1 =>
      rw [hstep] at h
      obtain ⟨hi1, hc1⟩ := stepEvent_inv (by rw [hc]; exact hw) (by rw [hc]; exact hh)
        (by rw [hc]; exact hl1) (by rw [hc]; exact hl2) (by rw [hc]; exact hsz)
        hinv hstep
      exact ih s1 s' (by rw [hc1, hc]) hi1 h

/-- Claim C6 (amended): for every config with positive i32 board dimensions,
`1 ≤ initial_len`, and `initial_len ≤ width/2 + 1` (so that the initial
snake fits on the board — see the counterexample for why the bound is
needed), every state reachable from creation by queue/tick/reset calls has a
non-empty snake, keeps every segment inside the board while Running, and
keeps the food set disjoint from the snake. -/
theorem c6_invariants (cfg : GameConfig)
    (hw : 0 < cfg.width) (hh : 0 < cfg.height)
    (hl1 : 1 ≤ cfg.initial_len)
    (hl2 : (cfg.initial_len : Int) ≤ Int.tdiv cfg.width 2 + 1)
    (hsz : cfg.width < 2 ^ 31)
    (rng : Rng) (s0 : GameState) (h0 : GameState.withRng cfg rng = some s0)
    (evs : List GameEvent) (s : GameState) (hrun : runEvents s0 evs = some s) :
    GameInv s := by
  unfold GameState.withRng at h0
  obtain ⟨hi0, hc0⟩ := reset_inv (s := ⟨cfg, [], .right, none, ∅, rng, .running, 0⟩)
    hw hh hl1 hl2 hsz h0
  exact (runEvents_inv hw hh hl1 hl2 hsz evs s0 s hc0 hi0 hrun).1

/-- Counterexample for C6 as frozen: with width 4, height 4 and
`initial_len = 4` (a config the claim admits), creation itself yields a
Running state whose tail segment `(-1, 2)` already lies outside the board. -/
theorem c6_counterexample :
    GameState.withRng c6cfg rng0 = some c6cexState ∧
    runEvents c6cexState [] = some c6cexState ∧
    c6cexState.status = .running ∧
    Point.mk (-1) 2 ∈ c6cexState.snake ∧
    ¬ inBounds c6cexState.cfg (Point.mk (-1) 2) :=
  ⟨rfl, rfl, rfl, by decide, by decide⟩

/-- Witness for C6: a well-behaved config, evaluated at creation followed by
one tick. -/
theorem c6_witness :
    ((0 : Int) < c6okCfg.width ∧ (0 : Int) < c6okCfg.height ∧
      1 ≤ c6okCfg.initial_len ∧
      (c6okCfg.initial_len : Int) ≤ Int.tdiv c6okCfg.width 2 + 1 ∧
      c6okCfg.width < 2 ^ 31 ∧
      GameState.withRng c6okCfg rng0 = some c6okState ∧
      runEvents c6okState [GameEvent.tick] = some
        ⟨c6okCfg, [⟨3, 2⟩, ⟨2, 2⟩], .right, none, {⟨0, 0⟩}, rng0'2, .running, 0⟩) ∧
    GameInv (⟨c6okCfg, [⟨3, 2⟩, ⟨2, 2⟩], .right, none, {⟨0, 0⟩}, rng0'2, .running, 0⟩ :
      GameState) :=
  ⟨⟨by decide, by decide, by decide, by decide, by decide, rfl, rfl⟩,
    c6_invariants c6okCfg (by decide) (by decide) (by decide) (by decide) (by decide)
      rng0 c6okState rfl [GameEvent.tick] _ rfl⟩

/-- Claim C10 (amended): for every config with positive board dimensions
(needed: food sampling panics on an empty range otherwise) whose clamped
initial length fits in i32 (needed: the `as i32` cast in `reset` otherwise
truncates — see the counterexample), `reset` — and therefore creation —
produces a snake of length exactly `max(initial_len, 1)` whose head is at
`(width/2, height/2)` with committed direction Right; in particular the
snake is non-empty even when `initial_len = 0`. -/
theorem c10_reset_layout (s : GameState)
    (hw : 0 < s.cfg.width) (hh : 0 < s.cfg.height)
    (hsz : max s.cfg.initial_len 1 < 2 ^ 31) :
    ∃ s', s.reset = some s' ∧ s'.snake.length = max s.cfg.initial_len 1 ∧
      s'.head = ⟨Int.tdiv s.cfg.width 2, Int.tdiv s.cfg.height 2⟩ ∧
      s'.dir = .right ∧ s'.snake ≠ [] := by
  obtain ⟨s', hs'⟩ := reset_total s hw hh
  obtain ⟨_, _, _, hd, _, hsn, _⟩ := reset_spec hs'
  refine ⟨s', hs', ?_, ?_, hd, ?_⟩
  · rw [hsn, initialSnake_length s.cfg hsz]
  · unfold GameState.head
    rw [hsn, initialSnake_headI s.cfg hsz]
  · rw [hsn]
    intro habs
    have := initialSnake_length s.cfg hsz
    rw [habs] at this
    simp at this
    omega

/-- Counterexample for C10 as frozen: with `initial_len = 2^31` the claim
requires a snake of length `2^31`, but the `as i32` cast makes the loop
bound negative and `reset` (reached through creation) returns an empty
snake. -/
theorem c10_counterexample :
    GameState.withRng c10cfg rng0 = some c10cexState ∧
    c10cexState.snake.length = 0 ∧
    max c10cfg.initial_len 1 = 2 ^ 31 ∧
    c10cexState.snake.length ≠ max c10cfg.initial_len 1 :=
  ⟨rfl, rfl, by decide, by decide⟩

/-- Witness for C10: a config with `initial_len = 0` resets to a single
centred segment. -/
theorem c10_witness :
    ((0 : Int) < w10cfg.width ∧ (0 : Int) < w10cfg.height ∧
      max w10cfg.initial_len 1 < 2 ^ 31) ∧
    ∃ s', (⟨w10cfg, [], .right, none, ∅, rng0, .running, 0⟩ : GameState).reset = some s' ∧
      s'.snake.length = max w10cfg.initial_len 1 ∧
      s'.head = ⟨Int.tdiv w10cfg.width 2, Int.tdiv w10cfg.height 2⟩ ∧
      s'.dir = .right ∧ s'.snake ≠ [] :=
  ⟨⟨by decide, by decide, by decide⟩,
    c10_reset_layout ⟨w10cfg, [], .right, none, ∅, rng0, .running, 0⟩
      (by decide) (by decide) (by decide)⟩

theorem contribList_cons (r : Raster2D) (i j : Nat) (hw : Nat × Nat)
    (t : List (Nat × Nat)) :
    contribList r i j (hw :: t) =
      if i = hw.1 / 4 ∧ j = hw.2 / 2 ∧ r.cellOn hw.2 hw.1 then
        ((dotContribution (hw.1 % 4) (hw.2 % 2)).1 ||| (contribList r i j t).1,
         (dotContribution (hw.1 % 4) (hw.2 % 2)).2 ||| (contribList r i j t).2)
      else contribList r i j t := by
  simp only [contribList]

theorem foldl_renderStep_char (r : Raster2D) (i j : Nat) :
    ∀ (l : List (Nat × Nat)) (g : BrailleGrid),
      (l.foldl (renderStep r) g) i j =
        ((g i j).1 ||| (contribList r i j l).1, (g i j).2 ||| (contribList r i j l).2) := by
  intro l
  induction l with
  | nil =>
    intro g
    simp [contribList]
  | cons hw t ih =>
    intro g
    rw [List.foldl_cons, ih (renderStep r g hw), contribList_cons]
    unfold renderStep
    by_cases hon : r.cellOn hw.2 hw.1
    · rw [if_pos hon]
      by_cases hkey : i = hw.1 / 4 ∧ j = hw.2 / 2
      · rw [if_pos hkey, if_pos ⟨hkey.1, hkey.2, hon⟩]
        simp [Nat.or_assoc]
      · rw [if_neg hkey, if_neg (fun hc => hkey ⟨hc.1, hc.2.1⟩)]
    · rw [if_neg hon, if_neg (fun hc => hon hc.2.2)]

theorem contribList_append (r : Raster2D) (i j : Nat) (l1 l2 : List (Nat × Nat)) :
    contribList r i j (l1 ++ l2) =
      ((contribList r i j l1).1 ||| (contribList r i j l2).1,
       (contribList r i j l1).2 ||| (contribList r i j l2).2) := by
  induction l1 with
  | nil => simp [contribList]
  | cons hw t ih =>
    rw [List.cons_append, contribList_cons, contribList_cons]
    split
    · rw [ih]
      simp [Nat.or_assoc]
    · rw [ih]

theorem contribList_eq_zero (r : Raster2D) (i j : Nat) (l : List (Nat × Nat))
    (h : ∀ hw ∈ l, ¬ (i = hw.1 / 4 ∧ j = hw.2 / 2)) :
    contribList r i j l = (0, 0) := by
  induction l with
  | nil => rfl
  | cons hw t ih =>
    rw [contribList_cons,
      if_neg (fun hc => h hw (List.mem_cons_self _ _) ⟨hc.1, hc.2.1⟩)]
    exact ih (fun q hq => h q (List.mem_cons_of_mem _ hq))

theorem contribList_row (r : Raster2D) (i j h gw : Nat) (hj : j < gw) :
    contribList r i j ((List.range (2 * gw)).map (fun w => (h, w))) =
      contribList r i j [(h, 2 * j), (h, 2 * j + 1)] := by
  have h1 : List.range (2 * gw) =
      List.range (2 * j) ++ (List.range (2 * gw - 2 * j)).map (fun x => 2 * j + x) := by
    rw [← List.range_add]
    congr 1
    omega
  have h2 : List.range (2 * gw - 2 * j) =
      List.range 2 ++ (List.range (2 * gw - 2 * j - 2)).map (fun x => 2 + x) := by
    rw [← List.range_add]
    congr 1
    omega
  rw [h1, h2, List.map_append, List.map_map, List.map_append, List.map_map]
  rw [contribList_append, contribList_append]
  rw [contribList_eq_zero r i j ((List.range (2 * j)).map (fun w => (h, w)))
    (by
      intro hw hmem
      rw [List.mem_map] at hmem
      obtain ⟨w, hwin, rfl⟩ := hmem
      rw [List.mem_range] at hwin
      rintro ⟨-, hj2⟩
      dsimp at hj2
      omega)]
  rw [contribList_eq_zero r i j
    ((List.range (2 * gw - 2 * j - 2)).map
      (((fun w => (h, w)) ∘ fun x => 2 * j + x) ∘ fun x => 2 + x))
    (by
      intro hw hmem
      rw [List.mem_map] at hmem
      obtain ⟨w, hwin, rfl⟩ := hmem
      rintro ⟨-, hj2⟩
      dsimp [Function.comp] at hj2
      omega)]
  have hmid : (List.range 2).map ((fun w => (h, w)) ∘ fun x => 2 * j + x) =
      [(h, 2 * j), (h, 2 * j + 1)] := by
    simp only [show List.range 2 = [0, 1] from rfl, List.map_cons, List.map_nil,
      Function.comp]
    norm_num
  rw [hmid]
  simp

theorem contribList_cellPairs_eq (r : Raster2D) (i j gw gh : Nat)
    (hwd : r.width.toNat = 2 * gw) (hhd : r.height.toNat = 4 * gh)
    (hi : i < gh) (hj : j < gw) :
    contribList r i j (cellPairs r) = contribList r i j (blockCells i j) := by
  unfold cellPairs
  rw [hwd, hhd]
  have h1 : List.range (4 * gh) =
      List.range (4 * i) ++ (List.range (4 * gh - 4 * i)).map (fun x => 4 * i + x) := by
    rw [← List.range_add]
    congr 1
    omega
  have h2 : List.range (4 * gh - 4 * i) =
      List.range 4 ++ (List.range (4 * gh - 4 * i - 4)).map (fun x => 4 + x) := by
    rw [← List.range_add]
    congr 1
    omega
  rw [h1, h2, List.flatMap_append, List.flatMap_map, List.flatMap_append,
    List.flatMap_map]
  rw [contribList_append, contribList_append]
  rw [contribList_eq_zero r i j
    ((List.range (4 * i)).flatMap (fun h => (List.range (2 * gw)).map (fun w => (h, w))))
    (by
      intro hw hmem
      rw [List.mem_flatMap] at hmem
      obtain ⟨a, hain, hmem⟩ := hmem
      rw [List.mem_range] at hain
      rw [List.mem_map] at hmem
      obtain ⟨w, hwin, rfl⟩ := hmem
      rintro ⟨hi2, -⟩
      dsimp at hi2
      omega)]
  rw [contribList_eq_zero r i j
    ((List.range (4 * gh - 4 * i - 4)).flatMap
      (fun a => List.map (fun w => (4 * i + (4 + a), w)) (List.range (2 * gw))))
    (by
      intro hw hmem
      rw [List.mem_flatMap] at hmem
      obtain ⟨a, hain, hmem⟩ := hmem
      rw [List.mem_map] at hmem
      obtain ⟨w, hwin, rfl⟩ := hmem
      rintro ⟨hi2, -⟩
      dsimp at hi2
      omega)]
  have hmidlist : (List.range 4).flatMap
      (fun a => List.map (fun w => (4 * i + a, w)) (List.range (2 * gw))) =
      ((List.range (2 * gw)).map (fun w => (4 * i, w)) ++
        ((List.range (2 * gw)).map (fun w => (4 * i + 1, w)) ++
          ((List.range (2 * gw)).map (fun w => (4 * i + 2, w)) ++
            (List.range (2 * gw)).map (fun w => (4 * i + 3, w))))) := by
    simp only [show List.range 4 = [0, 1, 2, 3] from rfl, List.flatMap_cons,
      List.flatMap_nil, List.append_nil]
    norm_num
  rw [hmidlist]
  rw [contribList_append, contribList_append, contribList_append]
  rw [contribList_row r i j (4 * i) gw hj, contribList_row r i j (4 * i + 1) gw hj,
    contribList_row r i j (4 * i + 2) gw hj, contribList_row r i j (4 * i + 3) gw hj]
  rw [show blockCells i j =
    [(4 * i, 2 * j), (4 * i, 2 * j + 1)] ++
      ([(4 * i + 1, 2 * j), (4 * i + 1, 2 * j + 1)] ++
        ([(4 * i + 2, 2 * j), (4 * i + 2, 2 * j + 1)] ++
          [(4 * i + 3, 2 * j), (4 * i + 3, 2 * j + 1)])) from rfl]
  rw [contribList_append, contribList_append, contribList_append]
  simp

theorem renderGrid_block (r : Raster2D) (i j gw gh : Nat)
    (hwd : r.width.toNat = 2 * gw) (hhd : r.height.toNat = 4 * gh)
    (hi : i < gh) (hj : j < gw) :
    renderGrid r i j =
      (0xA0 ||| (contribList r i j (blockCells i j)).1,
       0x80 ||| (contribList r i j (blockCells i j)).2) := by
  unfold renderGrid
  rw [foldl_renderStep_char, contribList_cellPairs_eq r i j gw gh hwd hhd hi hj]

theorem contribList_cons_key (r : Raster2D) (i j : Nat) (hw : Nat × Nat)
    (t : List (Nat × Nat)) (h1 : i = hw.1 / 4) (h2 : j = hw.2 / 2) :
    contribList r i j (hw :: t) =
      orIf (r.cellOn hw.2 hw.1) (dotContribution (hw.1 % 4) (hw.2 % 2))
        (contribList r i j t) := by
  rw [contribList_cons]
  unfold orIf
  by_cases hon : r.cellOn hw.2 hw.1
  · rw [if_pos ⟨h1, h2, hon⟩, if_pos hon]
  · rw [if_neg (fun hc => hon hc.2.2), if_neg hon]

theorem contribList_blockCells (r : Raster2D) (i j : Nat) :
    contribList r i j (blockCells i j) =
      blockPairOf (r.cellOn (2 * j) (4 * i)) (r.cellOn (2 * j + 1) (4 * i))
        (r.cellOn (2 * j) (4 * i + 1)) (r.cellOn (2 * j + 1) (4 * i + 1))
        (r.cellOn (2 * j) (4 * i + 2)) (r.cellOn (2 * j + 1) (4 * i + 2))
        (r.cellOn (2 * j) (4 * i + 3)) (r.cellOn (2 * j + 1) (4 * i + 3)) := by
  have d0 : 4 * i / 4 = i := by omega
  have d1 : (4 * i + 1) / 4 = i := by omega
  have d2 : (4 * i + 2) / 4 = i := by omega
  have d3 : (4 * i + 3) / 4 = i := by omega
  have m0 : 4 * i % 4 = 0 := by omega
  have m1 : (4 * i + 1) % 4 = 1 := by omega
  have m2 : (4 * i + 2) % 4 = 2 := by omega
  have m3 : (4 * i + 3) % 4 = 3 := by omega
  have e0 : 2 * j / 2 = j := by omega
  have e1 : (2 * j + 1) / 2 = j := by omega
  have f0 : 2 * j % 2 = 0 := by omega
  have f1 : (2 * j + 1) % 2 = 1 := by omega
  show contribList r i j
    [(4 * i, 2 * j), (4 * i, 2 * j + 1), (4 * i + 1, 2 * j), (4 * i + 1, 2 * j + 1),
      (4 * i + 2, 2 * j), (4 * i + 2, 2 * j + 1), (4 * i + 3, 2 * j),
      (4 * i + 3, 2 * j + 1)] = _
  rw [contribList_cons_key r i j _ _ (by dsimp; omega) (by dsimp; omega),
    contribList_cons_key r i j _ _ (by dsimp; omega) (by dsimp; omega),
    contribList_cons_key r i j _ _ (by dsimp; omega) (by dsimp; omega),
    contribList_cons_key r i j _ _ (by dsimp; omega) (by dsimp; omega),
    contribList_cons_key r i j _ _ (by dsimp; omega) (by dsimp; omega),
    contribList_cons_key r i j _ _ (by dsimp; omega) (by dsimp; omega),
    contribList_cons_key r i j _ _ (by dsimp; omega) (by dsimp; omega),
    contribList_cons_key r i j _ _ (by dsimp; omega) (by dsimp; omega)]
  dsimp only
  rw [m0, m1, m2, m3, f0, f1]
  rw [show contribList r i j [] = (0, 0) from rfl]
  unfold blockPairOf
  rfl

theorem blockPair_bits (b00 b01 b10 b11 b20 b21 b30 b31 : Bool) :
    (dotBit (0xA0 ||| (blockPairOf b00 b01 b10 b11 b20 b21 b30 b31).1,
        0x80 ||| (blockPairOf b00 b01 b10 b11 b20 b21 b30 b31).2) 0 = b00 ∧
      dotBit (0xA0 ||| (blockPairOf b00 b01 b10 b11 b20 b21 b30 b31).1,
        0x80 ||| (blockPairOf b00 b01 b10 b11 b20 b21 b30 b31).2) 1 = b10 ∧
      dotBit (0xA0 ||| (blockPairOf b00 b01 b10 b11 b20 b21 b30 b31).1,
        0x80 ||| (blockPairOf b00 b01 b10 b11 b20 b21 b30 b31).2) 2 = b20 ∧
      dotBit (0xA0 ||| (blockPairOf b00 b01 b10 b11 b20 b21 b30 b31).1,
        0x80 ||| (blockPairOf b00 b01 b10 b11 b20 b21 b30 b31).2) 6 = b30 ∧
      dotBit (0xA0 ||| (blockPairOf b00 b01 b10 b11 b20 b21 b30 b31).1,
        0x80 ||| (blockPairOf b00 b01 b10 b11 b20 b21 b30 b31).2) 3 = b01 ∧
      dotBit (0xA0 ||| (blockPairOf b00 b01 b10 b11 b20 b21 b30 b31).1,
        0x80 ||| (blockPairOf b00 b01 b10 b11 b20 b21 b30 b31).2) 4 = b11 ∧
      dotBit (0xA0 ||| (blockPairOf b00 b01 b10 b11 b20 b21 b30 b31).1,
        0x80 ||| (blockPairOf b00 b01 b10 b11 b20 b21 b30 b31).2) 5 = b21 ∧
      dotBit (0xA0 ||| (blockPairOf b00 b01 b10 b11 b20 b21 b30 b31).1,
        0x80 ||| (blockPairOf b00 b01 b10 b11 b20 b21 b30 b31).2) 7 = b31) ∧
    (b00 = false → b01 = false → b10 = false → b11 = false → b20 = false →
      b21 = false → b30 = false → b31 = false →
      (0xA0 ||| (blockPairOf b00 b01 b10 b11 b20 b21 b30 b31).1,
        0x80 ||| (blockPairOf b00 b01 b10 b11 b20 b21 b30 b31).2) = (0xA0, 0x80)) ∧
    glyphCodepoint (0xA0, 0x80) = 0x2800 := by
  cases b00 <;> cases b01 <;> cases b10 <;> cases b11 <;> cases b20 <;> cases b21 <;>
    cases b30 <;> cases b31 <;> decide

theorem width_toNat_eq {r : Raster2D} (h0 : 0 ≤ r.width)
    (ht : Int.tmod r.width 2 = 0) :
    r.width.toNat = 2 * (Int.tdiv r.width 2).toNat := by
  rw [tdiv_eq_ediv_on_nonneg _ _ h0 (by omega)]
  rw [tmod_eq_emod_on_nonneg _ _ h0 (by omega)] at ht
  omega

theorem height_toNat_eq {r : Raster2D} (h0 : 0 ≤ r.height)
    (ht : Int.tmod r.height 4 = 0) :
    r.height.toNat = 4 * (Int.tdiv r.height 4).toNat := by
  rw [tdiv_eq_ediv_on_nonneg _ _ h0 (by omega)]
  rw [tmod_eq_emod_on_nonneg _ _ h0 (by omega)] at ht
  omega

/-- Claim C8: on a well-formed raster whose width is divisible by 2 and
height by 4, glyph packing emits one glyph per 2-by-4 block, row-major with
block rows joined by a single newline byte; each on cell at sub-position
`(row mod 4, col mod 2)` sets exactly the dot bit of the fixed table (left
column rows 0-3 give bits 0, 1, 2, 6; right column rows 0-3 give bits 3, 4,
5, 7); an all-off block keeps the blank byte pair `(0xA0, 0x80)` — the
U+2800 glyph, not a space; and a width not divisible by 2 or a height not
divisible by 4 fails immediately with the dimension-mismatch error. -/
theorem c8_glyph_packing :
    (∀ r : Raster2D, r.WF → Int.tmod r.width 2 = 0 → Int.tmod r.height 4 = 0 →
      (render_braille r = some (List.intercalate [0x0A]
        ((List.range (Int.tdiv r.height 4).toNat).map (fun i =>
          (List.range (Int.tdiv r.width 2).toNat).flatMap (fun j =>
            glyphBytes (renderGrid r) i j)))) ∧
      ∀ i, i < (Int.tdiv r.height 4).toNat → ∀ j, j < (Int.tdiv r.width 2).toNat →
        (dotBit (renderGrid r i j) 0 = r.cellOn (2 * j) (4 * i) ∧
          dotBit (renderGrid r i j) 1 = r.cellOn (2 * j) (4 * i + 1) ∧
          dotBit (renderGrid r i j) 2 = r.cellOn (2 * j) (4 * i + 2) ∧
          dotBit (renderGrid r i j) 6 = r.cellOn (2 * j) (4 * i + 3) ∧
          dotBit (renderGrid r i j) 3 = r.cellOn (2 * j + 1) (4 * i) ∧
          dotBit (renderGrid r i j) 4 = r.cellOn (2 * j + 1) (4 * i + 1) ∧
          dotBit (renderGrid r i j) 5 = r.cellOn (2 * j + 1) (4 * i + 2) ∧
          dotBit (renderGrid r i j) 7 = r.cellOn (2 * j + 1) (4 * i + 3)) ∧
        (r.cellOn (2 * j) (4 * i) = false → r.cellOn (2 * j + 1) (4 * i) = false →
          r.cellOn (2 * j) (4 * i + 1) = false → r.cellOn (2 * j + 1) (4 * i + 1) = false →
          r.cellOn (2 * j) (4 * i + 2) = false → r.cellOn (2 * j + 1) (4 * i + 2) = false →
          r.cellOn (2 * j) (4 * i + 3) = false → r.cellOn (2 * j + 1) (4 * i + 3) = false →
          renderGrid r i j = (0xA0, 0x80)))) ∧
    glyphCodepoint (0xA0, 0x80) = 0x2800 ∧
    (∀ r : Raster2D, Int.tmod r.width 2 ≠ 0 ∨ Int.tmod r.height 4 ≠ 0 →
      render_braille r = none) := by
  refine ⟨?_, by decide, ?_⟩
  · intro r hwf ht2 ht4
    obtain ⟨hw0, hh0, -⟩ := hwf
    constructor
    · unfold render_braille
      rw [if_neg (fun hc => hc ht2), if_neg (fun hc => hc ht4)]
    · intro i hi j hj
      rw [renderGrid_block r i j (Int.tdiv r.width 2).toNat (Int.tdiv r.height 4).toNat
        (width_toNat_eq hw0 ht2) (height_toNat_eq hh0 ht4) hi hj,
        contribList_blockCells]
      obtain ⟨hbits, hblank, -⟩ := blockPair_bits (r.cellOn (2 * j) (4 * i))
        (r.cellOn (2 * j + 1) (4 * i)) (r.cellOn (2 * j) (4 * i + 1))
        (r.cellOn (2 * j + 1) (4 * i + 1)) (r.cellOn (2 * j) (4 * i + 2))
        (r.cellOn (2 * j + 1) (4 * i + 2)) (r.cellOn (2 * j) (4 * i + 3))
        (r.cellOn (2 * j + 1) (4 * i + 3))
      exact ⟨hbits, fun h1 h2 h3 h4 h5 h6 h7 h8 => hblank h1 h2 h3 h4 h5 h6 h7 h8⟩
  · intro r hbad
    unfold render_braille
    rcases hbad with hbad | hbad
    · rw [if_pos hbad]
    · by_cases hw2 : Int.tmod r.width 2 ≠ 0
      · rw [if_pos hw2]
      · rw [if_neg hw2, if_pos hbad]

/-- Witness for C8: the 2-by-4 raster with only its top-left cell on packs
to a single glyph whose dot bit 0 alone follows that cell, and a raster of
width 3 is rejected. -/
theorem c8_witness :
    (w8Raster.WF ∧ Int.tmod w8Raster.width 2 = 0 ∧ Int.tmod w8Raster.height 4 = 0 ∧
      (0 : Nat) < (Int.tdiv w8Raster.height 4).toNat ∧
      (0 : Nat) < (Int.tdiv w8Raster.width 2).toNat) ∧
    ((dotBit (renderGrid w8Raster 0 0) 0 = w8Raster.cellOn (2 * 0) (4 * 0) ∧
      dotBit (renderGrid w8Raster 0 0) 1 = w8Raster.cellOn (2 * 0) (4 * 0 + 1) ∧
      dotBit (renderGrid w8Raster 0 0) 2 = w8Raster.cellOn (2 * 0) (4 * 0 + 2) ∧
      dotBit (renderGrid w8Raster 0 0) 6 = w8Raster.cellOn (2 * 0) (4 * 0 + 3) ∧
      dotBit (renderGrid w8Raster 0 0) 3 = w8Raster.cellOn (2 * 0 + 1) (4 * 0) ∧
      dotBit (renderGrid w8Raster 0 0) 4 = w8Raster.cellOn (2 * 0 + 1) (4 * 0 + 1) ∧
      dotBit (renderGrid w8Raster 0 0) 5 = w8Raster.cellOn (2 * 0 + 1) (4 * 0 + 2) ∧
      dotBit (renderGrid w8Raster 0 0) 7 = w8Raster.cellOn (2 * 0 + 1) (4 * 0 + 3)) ∧
      (w8Raster.cellOn (2 * 0) (4 * 0) = false →
        w8Raster.cellOn (2 * 0 + 1) (4 * 0) = false →
        w8Raster.cellOn (2 * 0) (4 * 0 + 1) = false →
        w8Raster.cellOn (2 * 0 + 1) (4 * 0 + 1) = false →
        w8Raster.cellOn (2 * 0) (4 * 0 + 2) = false →
        w8Raster.cellOn (2 * 0 + 1) (4 * 0 + 2) = false →
        w8Raster.cellOn (2 * 0) (4 * 0 + 3) = false →
        w8Raster.cellOn (2 * 0 + 1) (4 * 0 + 3) = false →
        renderGrid w8Raster 0 0 = (0xA0, 0x80))) ∧
    render_braille (Raster2D.new 3 4) = none :=
  ⟨⟨by decide, by decide, by decide, by decide, by decide⟩,
    (c8_glyph_packing.1 w8Raster (by decide) (by decide) (by decide)).2 0 (by decide)
      0 (by decide),
    c8_glyph_packing.2.2 (Raster2D.new 3 4) (Or.inl (by decide))⟩

/-- Claim C9 (code bug): `Raster2D::get` is claimed to evaluate without
panicking, returning `None` exactly outside the inclusive probe range and
`Some` of the stored cell value otherwise; but on the 1-by-1 raster built by
`Raster2D::new(1, 1)` the inclusive guard of `idx` admits the probes
`(0, 1)` and `(1, 0)`, whose computed index 1 falls outside the one-element
cell vector, so `self.cells[idx]` panics (modelled by the outer `none`). -/
theorem c9_get_edge_probe_panics :
    (Raster2D.new 1 1).get 0 0 = some (some false) ∧
    (Raster2D.new 1 1).get (-1) 0 = some none ∧
    (Raster2D.new 1 1).get 2 0 = some none ∧
    (Raster2D.new 1 1).get 0 1 = none ∧
    (Raster2D.new 1 1).get 1 0 = none := by
  decide
